import Mathlib

/-!
Shallow embedding of two subsystems of this repository and proofs about them:

* `src/librustc_mir/transform/simplify_cfg.rs` — the MIR CFG simplifier
  (`CfgSimplifier::new/simplify/collapse_goto_chain/merge_successor/
  simplify_branch` and `remove_dead_blocks`), embedded in namespace
  `SimplifyCfg`.
* `src/librustc_resolve/resolve_imports.rs` — the import resolver, embedded
  in namespace `ResolveImports`.

Conventions of the embedding:
* `BasicBlock` indices, statements, conditions and discriminants are `Nat`
  labels; only the structure the pass inspects is kept.
* The `u32` predecessor counters use wrapping arithmetic modulo `2 ^ 32`,
  as in a release build of the source.
* Loops that the source runs to a fixed point are given explicit fuel and
  return `none` when the fuel runs out, so a `some` result is exactly a
  terminating run of the source loop.
* An out-of-bounds index would be a panic in the source; the embedding
  makes those lookups total (`getD` / `get?` with a no-op fallback) and
  every theorem carries well-formedness hypotheses that exclude them.
-/

namespace SimplifyCfg

/-- `TerminatorKind` of `rustc::mir::repr`.  `If`/`Switch`/`SwitchInt` keep
only their successor structure (condition and discriminant are irrelevant to
the pass); call, drop, resume and the remaining kinds are collapsed into
`Other` carrying their successor list, matching how `simplify_cfg.rs` treats
them opaquely through `successors()`/`successors_mut()`. -/
inductive TerminatorKind where
  | Goto (target : Nat)
  | If (t e : Nat)
  | Switch (targets : List Nat)
  | SwitchInt (targets : List Nat)
  | Return
  | Other (succs : List Nat)
  deriving DecidableEq, Repr

/-- The ordered successor list exposed by `Terminator::successors()`. -/
def TerminatorKind.successors : TerminatorKind → List Nat
  | .Goto t => [t]
  | .If t e => [t, e]
  | .Switch ts => ts
  | .SwitchInt ts => ts
  | .Return => []
  | .Other ts => ts

/-- Rewriting every successor slot in place (`successors_mut()`). -/
def TerminatorKind.mapSuccs (f : Nat → Nat) : TerminatorKind → TerminatorKind
  | .Goto t => .Goto (f t)
  | .If t e => .If (f t) (f e)
  | .Switch ts => .Switch (ts.map f)
  | .SwitchInt ts => .SwitchInt (ts.map f)
  | .Return => .Return
  | .Other ts => .Other (ts.map f)

/-- `BasicBlockData`: statements (as labels) plus the optional terminator.
The terminator is `none` only transiently while a block is being rewritten. -/
structure BasicBlockData where
  statements : List Nat
  terminator : Option TerminatorKind
  deriving DecidableEq, Repr

/-- Successors of a block, empty when the terminator has been taken out. -/
def succsOf (b : BasicBlockData) : List Nat :=
  match b.terminator with
  | some t => t.successors
  | none => []

/-- `2 ^ 32`, the modulus of the `u32` predecessor counters. -/
def u32size : Nat := 4294967296

/-- Read a predecessor counter. -/
def pcGet (l : List Nat) (i : Nat) : Nat := l.getD i 0

/-- `pred_count[i] += 1` with `u32` wrapping. -/
def pcInc (l : List Nat) (i : Nat) : List Nat := l.set i ((pcGet l i + 1) % u32size)

/-- `pred_count[i] -= n` with `u32` wrapping (`wrapping_sub`). -/
def pcSub (l : List Nat) (i n : Nat) : List Nat :=
  l.set i ((pcGet l i + (u32size - n % u32size)) % u32size)

/-- Successor list of the block at index `v` (empty off the end of the
vector, a case the theorems' range hypotheses exclude). -/
def succsIdx (blocks : List BasicBlockData) (v : Nat) : List Nat :=
  match blocks[v]? with
  | some b => succsOf b
  | none => []

/-- One step of the preorder worklist of `rustc::mir::traversal::preorder`:
pop a block, mark it visited, push its successors.  Only the visited set is
used by the pass, so the worklist order is immaterial; the successor pushes
mirror the source's stack order.  Fuel bounds the number of loop steps. -/
def preorderGo (blocks : List BasicBlockData) : Nat → List Nat → List Nat → List Nat
  | 0, _, visited => visited
  | _ + 1, [], visited => visited
  | fuel + 1, v :: rest, visited =>
    if v ∈ visited then preorderGo blocks fuel rest visited
    else preorderGo blocks fuel ((succsIdx blocks v).reverse ++ rest) (v :: visited)

/-- Total number of successor slots, used to bound the preorder worklist. -/
def succCount (blocks : List BasicBlockData) : Nat :=
  blocks.foldr (fun b a => (succsOf b).length + a) 0

/-- Fuel that always suffices for the preorder traversal: every loop step
either consumes a worklist entry pushed at most once per edge, or visits a
fresh block. -/
def preorderFuel (blocks : List BasicBlockData) : Nat :=
  blocks.length + succCount blocks + 1

/-- The set of blocks visited by `traversal::preorder` starting at block 0. -/
def preorderSeen (blocks : List BasicBlockData) : List Nat :=
  preorderGo blocks (preorderFuel blocks) [0] []

/-- `CfgSimplifier::new`: predecessor counts accumulated over the preorder
traversal (dead blocks contribute nothing).  Note that the source seeds the
entry block with 0, not 1: only internal edges are counted. -/
def initPredCount (blocks : List BasicBlockData) : List Nat :=
  (preorderSeen blocks).foldl
    (fun pc v => (succsIdx blocks v).foldl (fun pc tgt => pcInc pc tgt) pc)
    (List.replicate blocks.length 0)

/-- The state of `CfgSimplifier`: the block vector and the counter vector. -/
structure CfgSimplifier where
  basic_blocks : List BasicBlockData
  pred_count : List Nat
  deriving DecidableEq, Repr

/-- `CfgSimplifier::new`. -/
def CfgSimplifier.new (mir : List BasicBlockData) : CfgSimplifier :=
  { basic_blocks := mir, pred_count := initPredCount mir }

/-- Update block `i` in place (no-op on an out-of-range index, which would
be a panic in the source and is excluded by the theorems' hypotheses). -/
def modifyBlock (s : CfgSimplifier) (i : Nat) (f : BasicBlockData → BasicBlockData) :
    CfgSimplifier :=
  match s.basic_blocks[i]? with
  | some b => { s with basic_blocks := s.basic_blocks.set i (f b) }
  | none => s

/-- The pattern guarding `collapse_goto_chain`'s rewrite: a block whose
statement list is empty and whose terminator is present and a `Goto`
(`BasicBlockData { ref statements, terminator @ Some(Goto) } if
statements.is_empty()` in the source); returns the goto target. -/
def isEmptyGoto : Option BasicBlockData → Option Nat
  | some ⟨[], some (.Goto w)⟩ => some w
  | _ => none

/-- `CfgSimplifier::collapse_goto_chain`, acting on one successor slot
holding `start`; returns the new state, the new slot value and the updated
`changed` flag.  The source recursion terminates because each level takes
the terminator of a distinct block out before recursing at its target; the
fuel argument is a bound on that recursion depth, and the wrapper
`collapse_goto_chain` below supplies `basic_blocks.length + 1`, which always
suffices (each level Nones out one more block, so the depth is at most the
number of blocks plus one). -/
def collapseGotoChainFuel :
    Nat → CfgSimplifier → Nat → Bool → CfgSimplifier × Nat × Bool
  | 0, s, start, changed => (s, start, changed)
  | fuel + 1, s, start, changed =>
    match isEmptyGoto s.basic_blocks[start]? with
    | some w =>
      let s1 := modifyBlock s start fun b => { b with terminator := none }
      let (s2, target, changed1) := collapseGotoChainFuel fuel s1 w changed
      let s3 := modifyBlock s2 start fun b => { b with terminator := some (.Goto target) }
      let changed2 := changed1 || decide (start ≠ target)
      let s4 : CfgSimplifier :=
        { s3 with pred_count := pcSub (pcInc s3.pred_count target) start 1 }
      (s4, target, changed2)
    | none => (s, start, changed)

/-- `collapse_goto_chain` with its always-sufficient recursion bound. -/
def collapse_goto_chain (s : CfgSimplifier) (start : Nat) (changed : Bool) :
    CfgSimplifier × Nat × Bool :=
  collapseGotoChainFuel (s.basic_blocks.length + 1) s start changed

/-- Collapse every successor slot of a taken terminator, left to right. -/
def collapseList (s : CfgSimplifier) (changed : Bool) :
    List Nat → CfgSimplifier × List Nat × Bool
  | [] => (s, [], changed)
  | t :: rest =>
    let (s1, t', c1) := collapse_goto_chain s t changed
    let (s2, rest', c2) := collapseList s1 c1 rest
    (s2, t' :: rest', c2)

/-- Put a rewritten successor list back into a terminator of the same shape. -/
def TerminatorKind.withSuccessors : TerminatorKind → List Nat → TerminatorKind
  | .Goto _, [t] => .Goto t
  | .If _ _, [t, e] => .If t e
  | .Switch _, ts => .Switch ts
  | .SwitchInt _, ts => .SwitchInt ts
  | .Return, _ => .Return
  | .Other _, ts => .Other ts
  | t, _ => t

/-- The `for successor in terminator.successors_mut()` loop of
`CfgSimplifier::simplify`. -/
def collapseSuccessors (s : CfgSimplifier) (term : TerminatorKind) (changed : Bool) :
    CfgSimplifier × TerminatorKind × Bool :=
  let (s1, ts, c) := collapseList s changed term.successors
  (s1, term.withSuccessors ts, c)

/-- `CfgSimplifier::merge_successor`: absorb a `Goto` target with a single
predecessor; returns `(state, new_stmts, terminator, merged?)`. -/
def merge_successor (s : CfgSimplifier) (new_stmts : List Nat)
    (terminator : TerminatorKind) : CfgSimplifier × List Nat × TerminatorKind × Bool :=
  match terminator with
  | .Goto target =>
    if pcGet s.pred_count target = 1 then
      match s.basic_blocks[target]? with
      | some b =>
        match b.terminator with
        | some tgtTerm =>
          let s1 : CfgSimplifier :=
            { s with basic_blocks :=
                s.basic_blocks.set target { b with statements := [], terminator := none } }
          let s2 : CfgSimplifier := { s1 with pred_count := s1.pred_count.set target 0 }
          (s2, new_stmts ++ b.statements, tgtTerm, true)
        | none => (s, new_stmts, terminator, false)
      | none => (s, new_stmts, terminator, false)
    else (s, new_stmts, terminator, false)
  | _ => (s, new_stmts, terminator, false)

/-- `CfgSimplifier::simplify_branch`: a conditional whose successors are all
equal becomes a `Goto`, giving back the duplicate predecessor edges. -/
def simplify_branch (s : CfgSimplifier) (terminator : TerminatorKind) :
    CfgSimplifier × TerminatorKind × Bool :=
  match terminator with
  | .If _ _ | .Switch _ | .SwitchInt _ =>
    match terminator.successors with
    | [] => (s, terminator, false)
    | first :: rest =>
      if rest.all (fun x => x = first) then
        let s1 : CfgSimplifier :=
          { s with pred_count :=
              pcSub s.pred_count first ((terminator.successors.length - 1) % u32size) }
        (s1, .Goto first, true)
      else (s, terminator, false)
  | _ => (s, terminator, false)

/-- The `while inner_changed` loop of `CfgSimplifier::simplify`: run
`simplify_branch` then `merge_successor` until neither changes anything. -/
def simplifyInner :
    Nat → CfgSimplifier → List Nat → TerminatorKind → Bool →
    Option (CfgSimplifier × List Nat × TerminatorKind × Bool)
  | 0, _, _, _, _ => none
  | fuel + 1, s, new_stmts, terminator, changed =>
    let (s1, term1, c1) := simplify_branch s terminator
    let (s2, stmts2, term2, c2) := merge_successor s1 new_stmts term1
    let inner := c1 || c2
    let changed' := changed || inner
    if inner then simplifyInner fuel s2 stmts2 term2 changed'
    else some (s2, stmts2, term2, changed')

/-- The body of `CfgSimplifier::simplify` for one block `bb`:
skip it when `pred_count[bb] == 0`, otherwise take the terminator out,
collapse each successor slot, run the inner loop, then put the accumulated
statements and the terminator back.  `none` models the source's
`.expect("invalid terminator state")` panic. -/
def simplifyBlockStep (s : CfgSimplifier) (bb : Nat) (changed : Bool) :
    Option (CfgSimplifier × Bool) :=
  if pcGet s.pred_count bb = 0 then some (s, changed)
  else
    match s.basic_blocks[bb]? with
    | none => some (s, changed)
    | some b =>
      match b.terminator with
      | none => none
      | some term0 =>
        let s1 : CfgSimplifier :=
          { s with basic_blocks := s.basic_blocks.set bb { b with terminator := none } }
        let (s2, term1, changed1) := collapseSuccessors s1 term0 changed
        match simplifyInner (2 * s2.basic_blocks.length + 2) s2 [] term1 changed1 with
        | none => none
        | some (s3, new_stmts, term2, changed2) =>
          let s4 := modifyBlock s3 bb fun b2 =>
            { b2 with statements := b2.statements ++ new_stmts, terminator := some term2 }
          some (s4, changed2)

/-- One full sweep of `for bb in (0..self.basic_blocks.len())`. -/
def simplifyPassGo (s : CfgSimplifier) (changed : Bool) :
    List Nat → Option (CfgSimplifier × Bool)
  | [] => some (s, changed)
  | bb :: rest =>
    match simplifyBlockStep s bb changed with
    | none => none
    | some (s1, c1) => simplifyPassGo s1 c1 rest

/-- The outer `loop { ... if !changed break }` of `CfgSimplifier::simplify`. -/
def simplifyLoop : Nat → CfgSimplifier → Option CfgSimplifier
  | 0, _ => none
  | fuel + 1, s =>
    match simplifyPassGo s false (List.range s.basic_blocks.length) with
    | none => none
    | some (s1, changed) => if changed then simplifyLoop fuel s1 else some s1

/-- `CfgSimplifier::new(mir).simplify()`, with fuel for the outer loop. -/
def simplify (mir : List BasicBlockData) (fuel : Nat) : Option CfgSimplifier :=
  simplifyLoop fuel (CfgSimplifier.new mir)

/-- `Vec::swap` of two block slots. -/
def listSwap {α : Type} (l : List α) (i j : Nat) : List α :=
  match l[i]?, l[j]? with
  | some a, some b => (l.set i b).set j a
  | _, _ => l

/-- `seen.iter()`: the reachable block indices in increasing order (the
`BitVector` iterates set bits in index order). -/
def seenSorted (blocks : List BasicBlockData) : List Nat :=
  (List.range blocks.length).filter (fun v => v ∈ preorderSeen blocks)

/-- The compaction loop of `remove_dead_blocks`: walk the live indices in
increasing order, record each one's replacement and swap it down into the
next free slot. -/
def compactGo :
    List Nat → List Nat → Nat → List BasicBlockData → List Nat × Nat × List BasicBlockData
  | [], repl, used, bl => (repl, used, bl)
  | alive :: rest, repl, used, bl =>
    let repl' := repl.set alive used
    let bl' := if alive = used then bl else listSwap bl alive used
    compactGo rest repl' (used + 1) bl'

/-- `remove_dead_blocks`: compute reachability from block 0, compact the
live blocks down, truncate, and rewrite every successor through the remap.
The source's `terminator_mut()` unwraps the terminator (a panic when it is
`None`); the embedding maps over the option and the theorems assume every
reachable block has `some` terminator. -/
def remove_dead_blocks (blocks : List BasicBlockData) : List BasicBlockData :=
  let res := compactGo (seenSorted blocks) (List.range blocks.length) 0 blocks
  let repl := res.1
  let used := res.2.1
  let truncated := res.2.2.take used
  truncated.map fun b =>
    { b with terminator := b.terminator.map (fun t => t.mapSuccs (fun tgt => repl.getD tgt tgt)) }

/-- `SimplifyCfg::run_pass`: `CfgSimplifier::new(mir).simplify()` followed by
`remove_dead_blocks(mir)`. -/
def run_pass (mir : List BasicBlockData) (fuel : Nat) : Option (List BasicBlockData) :=
  match simplify mir fuel with
  | none => none
  | some s => some (remove_dead_blocks s.basic_blocks)

/-- The input CFG of the spec's first concrete scenario:
`B0: [] → Goto B1; B1: [] → Goto B2; B2: [s] → Return` (with `s` = 10). -/
def exampleChain : List BasicBlockData :=
  [⟨[], some (.Goto 1)⟩, ⟨[], some (.Goto 2)⟩, ⟨[10], some .Return⟩]

/-- A CFG whose entry block has exactly one internal predecessor:
`B0: [5] → If(c, B1, B2); B1: [6] → Goto B0; B2: [] → Return`. -/
def exampleEntryLoop : List BasicBlockData :=
  [⟨[5], some (.If 1 2)⟩, ⟨[6], some (.Goto 0)⟩, ⟨[], some .Return⟩]

/-- A CFG whose entry block has a fully degenerate conditional:
`B0: [] → If(c, B1, B1); B1: [] → Return`. -/
def exampleEntryIf : List BasicBlockData :=
  [⟨[], some (.If 1 1)⟩, ⟨[], some .Return⟩]

/-- C1: on `B0: [] → Goto B1; B1: [] → Goto B2; B2: [s] → Return`, the claim
says `simplify` + `remove_dead_blocks` yields the single block
`B0: [s] → Return`.  The code instead yields the two blocks
`B0: [] → Goto B1; B1: [s] → Return`: `CfgSimplifier::new` leaves
`pred_count[entry] = 0` (only internal edges are counted), so the driver's
`if pred_count[bb] == 0 continue` skips the entry block and its goto chain is
never collapsed.  The `some` result certifies that the source's loops
terminate on this input with exactly this output. -/
theorem claim_C1_entry_chain_not_collapsed :
    run_pass exampleChain 4 =
      some [⟨[], some (.Goto 1)⟩, ⟨[10], some .Return⟩] ∧
    run_pass exampleChain 4 ≠ some [⟨[10], some .Return⟩] := by
  constructor
  · rfl
  · decide

/-- C2: the claim says the entry block is never merged away by
`merge_successor`.  On `B0: [5] → If(c, B1, B2); B1: [6] → Goto B0;
B2: [] → Return` the entry has exactly one internal predecessor, so
`pred_count = [1, 1, 1]` after `CfgSimplifier::new`, and while block 1 is
being simplified `merge_successor` sees `Goto B0` with `pred_count[0] == 1`
and absorbs the entry block: after `simplify`, block 0 is `⟨[], none⟩`
(statements drained, terminator taken) and its statement `5` and terminator
`If 1 2` now live in block 1. -/
theorem claim_C2_entry_block_merged_away :
    initPredCount exampleEntryLoop = [1, 1, 1] ∧
    simplify exampleEntryLoop 4 =
      some ⟨[⟨[], none⟩, ⟨[6, 5], some (.If 1 2)⟩, ⟨[], some .Return⟩], [0, 1, 1]⟩ := by
  constructor
  · rfl
  · rfl

/-- C4: the claim says that when `simplify` returns no reachable block has a
conditional terminator with all successors equal.  On
`B0: [] → If(c, B1, B1); B1: [] → Return` the entry block (reachable by
definition) keeps its degenerate `If(c, B1, B1)`: `pred_count[0] = 0`, so the
driver never visits block 0 and `simplify_branch` never runs on it. -/
theorem claim_C4_degenerate_branch_survives :
    simplify exampleEntryIf 4 =
      some ⟨[⟨[], some (.If 1 1)⟩, ⟨[], some .Return⟩], [0, 2]⟩ ∧
    (0 ∈ preorderSeen exampleEntryIf ∧
      (TerminatorKind.If 1 1).successors.all (fun x => x = 1)) := by
  exact ⟨rfl, by decide, by decide⟩

/-! ### Counter bookkeeping lemmas -/

theorem getD_set_self (l : List Nat) (i a : Nat) (h : i < l.length) :
    (l.set i a).getD i 0 = a := by
  simp [List.getD_eq_getElem?_getD, List.getElem?_set_eq_of_lt, h]

theorem getD_set_other (l : List Nat) (i a v : Nat) (h : v ≠ i) :
    (l.set i a).getD v 0 = l.getD v 0 := by
  simp [List.getD_eq_getElem?_getD, List.getElem?_set_ne, h.symm]

theorem sum_set_plus (l : List Nat) (i a : Nat) (h : i < l.length) :
    (l.set i a).sum + l.getD i 0 = l.sum + a := by
  induction l generalizing i with
  | nil => simp at h
  | cons x xs ih =>
    cases i with
    | zero => simp [List.set]; omega
    | succ n =>
      simp only [List.set, List.sum_cons, List.getD_cons_succ]
      have := ih n (by simpa using h)
      omega

theorem pcInc_sum (l : List Nat) (i : Nat) (h : i < l.length)
    (hb : l.getD i 0 + 1 < u32size) : (pcInc l i).sum = l.sum + 1 := by
  unfold pcInc pcGet
  rw [Nat.mod_eq_of_lt hb]
  have := sum_set_plus l i (l.getD i 0 + 1) h
  omega

theorem pcSub_one_val (x : Nat) (h1 : 1 ≤ x) (h2 : x < u32size) :
    (x + (u32size - 1 % u32size)) % u32size = x - 1 := by
  have e1 : 1 % u32size = 1 := by norm_num [u32size]
  rw [e1]
  have e2 : x + (u32size - 1) = (x - 1) + u32size := by
    have : 1 ≤ u32size := by norm_num [u32size]
    omega
  rw [e2, Nat.add_mod_right]
  exact Nat.mod_eq_of_lt (by omega)

theorem pcSub_one_sum (l : List Nat) (i : Nat) (h : i < l.length)
    (h1 : 1 ≤ l.getD i 0) (h2 : l.getD i 0 < u32size) :
    (pcSub l i 1).sum + 1 = l.sum := by
  unfold pcSub pcGet
  rw [pcSub_one_val _ h1 h2]
  have := sum_set_plus l i (l.getD i 0 - 1) h
  omega

theorem pcGet_pcInc_self (l : List Nat) (i : Nat) (h : i < l.length)
    (hb : l.getD i 0 + 1 < u32size) : pcGet (pcInc l i) i = pcGet l i + 1 := by
  unfold pcInc pcGet
  rw [Nat.mod_eq_of_lt hb]
  exact getD_set_self l i _ h

theorem pcGet_pcInc_other (l : List Nat) (i v : Nat) (h : v ≠ i) :
    pcGet (pcInc l i) v = pcGet l v := getD_set_other l i _ v h

theorem pcGet_pcSub_one_self (l : List Nat) (i : Nat) (h : i < l.length)
    (h1 : 1 ≤ l.getD i 0) (h2 : l.getD i 0 < u32size) :
    pcGet (pcSub l i 1) i = pcGet l i - 1 := by
  unfold pcSub pcGet
  rw [pcSub_one_val _ h1 h2]
  exact getD_set_self l i _ h

theorem pcGet_pcSub_other (l : List Nat) (i n v : Nat) (h : v ≠ i) :
    pcGet (pcSub l i n) v = pcGet l v := getD_set_other l i _ v h

theorem length_pcInc (l : List Nat) (i : Nat) : (pcInc l i).length = l.length :=
  List.length_set l i _

theorem length_pcSub (l : List Nat) (i n : Nat) : (pcSub l i n).length = l.length :=
  List.length_set l i _

/-! ### C9: `collapse_goto_chain` preserves the total predecessor count -/

/-- Inversion for the guard pattern of `collapse_goto_chain`. -/
theorem isEmptyGoto_some {o : Option BasicBlockData} {w : Nat}
    (h : isEmptyGoto o = some w) : o = some ⟨[], some (.Goto w)⟩ := by
  rcases o with _ | ⟨stmts, term⟩
  · simp [isEmptyGoto] at h
  · rcases stmts with _ | ⟨a, rest⟩
    · rcases term with _ | t
      · simp [isEmptyGoto] at h
      · cases t <;> simp_all [isEmptyGoto]
    · simp [isEmptyGoto] at h

theorem modifyBlock_of_get {s : CfgSimplifier} {i : Nat} {b : BasicBlockData}
    (f : BasicBlockData → BasicBlockData) (h : s.basic_blocks[i]? = some b) :
    modifyBlock s i f = { s with basic_blocks := s.basic_blocks.set i (f b) } := by
  unfold modifyBlock
  rw [h]

/-- Every `Goto` target points inside the block vector (the panics-excluded
well-formedness the theorems assume). -/
def GotoInRange (s : CfgSimplifier) : Prop :=
  ∀ (i : Nat) (b : BasicBlockData) (w : Nat),
    s.basic_blocks[i]? = some b → b.terminator = some (.Goto w) →
    w < s.basic_blocks.length

/-- Every statement-free `Goto` block has at least one counted predecessor
(which holds of the states the driver feeds to `collapse_goto_chain`: such a
block is somebody's successor). -/
def EmptyGotoPos (s : CfgSimplifier) : Prop :=
  ∀ (i : Nat) (b : BasicBlockData) (w : Nat),
    s.basic_blocks[i]? = some b → b.statements = [] →
    b.terminator = some (.Goto w) → 1 ≤ pcGet s.pred_count i

/-- The heart of C9, by induction on the recursion depth: a call to
`collapse_goto_chain` (a) preserves the sum of all predecessor counters —
each rewrite adds one to the new target and takes one from the old slot
block — (b) raises any single counter by at most the depth, (c) leaves
blocks with a taken-out terminator untouched and never lowers their counter,
(d) returns an in-range target, and (e,f) preserves both vector lengths. -/
theorem collapseFuel_spec :
    ∀ (fuel : Nat) (s : CfgSimplifier) (start : Nat) (changed : Bool),
      s.pred_count.length = s.basic_blocks.length →
      start < s.basic_blocks.length →
      GotoInRange s →
      EmptyGotoPos s →
      (∀ i, pcGet s.pred_count i + fuel < u32size) →
      (collapseGotoChainFuel fuel s start changed).1.pred_count.sum = s.pred_count.sum ∧
      (∀ v, pcGet (collapseGotoChainFuel fuel s start changed).1.pred_count v ≤
        pcGet s.pred_count v + fuel) ∧
      (∀ v b', s.basic_blocks[v]? = some b' → b'.terminator = none →
        (collapseGotoChainFuel fuel s start changed).1.basic_blocks[v]? = some b' ∧
        pcGet s.pred_count v ≤ pcGet (collapseGotoChainFuel fuel s start changed).1.pred_count v) ∧
      (collapseGotoChainFuel fuel s start changed).2.1 < s.basic_blocks.length ∧
      (collapseGotoChainFuel fuel s start changed).1.basic_blocks.length =
        s.basic_blocks.length ∧
      (collapseGotoChainFuel fuel s start changed).1.pred_count.length =
        s.pred_count.length := by
  intro fuel
  induction fuel with
  | zero =>
    intro s start changed _ hstart _ _ _
    exact ⟨rfl, fun v => Nat.le_add_right _ _, fun v b' h1 _ => ⟨h1, le_rfl⟩,
      hstart, rfl, rfl⟩
  | succ fuel ih =>
    intro s start changed hlen hstart htgt hpos hwrap
    cases hw : isEmptyGoto s.basic_blocks[start]? with
    | none =>
      have heq : collapseGotoChainFuel (fuel + 1) s start changed = (s, start, changed) := by
        unfold collapseGotoChainFuel
        rw [hw]
      rw [heq]
      exact ⟨rfl, fun v => Nat.le_add_right _ _, fun v b' h1 _ => ⟨h1, le_rfl⟩,
        hstart, rfl, rfl⟩
    | some w =>
      have hb := isEmptyGoto_some hw
      have hwlen : w < s.basic_blocks.length := htgt start _ w hb rfl
      have hmb : (modifyBlock s start fun b => { b with terminator := none }) =
          ⟨s.basic_blocks.set start ⟨[], none⟩, s.pred_count⟩ := by
        rw [modifyBlock_of_get _ hb]
      have hlen1 : (s.basic_blocks.set start (⟨[], none⟩ : BasicBlockData)).length =
          s.basic_blocks.length := List.length_set _ _ _
      have hget1 : (s.basic_blocks.set start (⟨[], none⟩ : BasicBlockData))[start]? =
          some ⟨[], none⟩ := List.getElem?_set_eq_of_lt _ hstart
      have hget1' : ∀ v, v ≠ start →
          (s.basic_blocks.set start (⟨[], none⟩ : BasicBlockData))[v]? = s.basic_blocks[v]? :=
        fun v hv => List.getElem?_set_ne (fun h => hv h.symm)
      have htgt1 : GotoInRange ⟨s.basic_blocks.set start ⟨[], none⟩, s.pred_count⟩ := by
        intro i b' w' h1 h2
        have h1' : (s.basic_blocks.set start (⟨[], none⟩ : BasicBlockData))[i]? = some b' := h1
        show w' < (s.basic_blocks.set start (⟨[], none⟩ : BasicBlockData)).length
        rw [hlen1]
        rcases eq_or_ne i start with heq | hne
        · rw [heq, hget1] at h1'
          cases h1'
          cases h2
        · rw [hget1' i hne] at h1'
          exact htgt i b' w' h1' h2
      have hpos1 : EmptyGotoPos ⟨s.basic_blocks.set start ⟨[], none⟩, s.pred_count⟩ := by
        intro i b' w' h1 h2 h3
        have h1' : (s.basic_blocks.set start (⟨[], none⟩ : BasicBlockData))[i]? = some b' := h1
        show 1 ≤ pcGet s.pred_count i
        rcases eq_or_ne i start with heq | hne
        · rw [heq, hget1] at h1'
          cases h1'
          cases h3
        · rw [hget1' i hne] at h1'
          exact hpos i b' w' h1' h2 h3
      rcases hrec : collapseGotoChainFuel fuel
          ⟨s.basic_blocks.set start ⟨[], none⟩, s.pred_count⟩ w changed with
        ⟨s2, target, changed1⟩
      have IH := ih ⟨s.basic_blocks.set start ⟨[], none⟩, s.pred_count⟩ w changed
        (show s.pred_count.length = (s.basic_blocks.set start (⟨[], none⟩ :
          BasicBlockData)).length by rw [hlen1]; exact hlen)
        (show w < (s.basic_blocks.set start (⟨[], none⟩ : BasicBlockData)).length by
          rw [hlen1]; exact hwlen)
        htgt1 hpos1
        (fun i => by
          show pcGet s.pred_count i + fuel < u32size
          have := hwrap i
          omega)
      rw [hrec] at IH
      dsimp only at IH
      obtain ⟨hsum2, hmono2, hpres2, htl2, hbl2, hpl2⟩ := IH
      rw [hlen1] at htl2 hbl2
      -- block `start` survived the recursion with its terminator still out
      obtain ⟨hg2, hge2⟩ := hpres2 start ⟨[], none⟩ hget1 rfl
      have hmb3 : (modifyBlock s2 start fun b => { b with terminator := some (.Goto target) }) =
          ⟨s2.basic_blocks.set start ⟨[], some (.Goto target)⟩, s2.pred_count⟩ := by
        rw [modifyBlock_of_get _ hg2]
      have hstart2 : start < s2.pred_count.length := by
        rw [hpl2, hlen]
        exact hstart
      have htarget2 : target < s2.pred_count.length := by
        rw [hpl2, hlen]
        exact htl2
      -- the target counter can be incremented without wrapping
      have hincbound : pcGet s2.pred_count target + 1 < u32size := by
        have h1 := hmono2 target
        have h2 := hwrap target
        omega
      -- the start counter is still at least one and strictly below the modulus
      have hstartpos : 1 ≤ pcGet s2.pred_count start := by
        have h0 : 1 ≤ pcGet s.pred_count start := hpos start _ w hb rfl rfl
        exact le_trans h0 hge2
      have hstartbound : pcGet s2.pred_count start < u32size := by
        have h1 := hmono2 start
        have h2 := hwrap start
        omega
      have hlenInc : (pcInc s2.pred_count target).length = s2.pred_count.length :=
        length_pcInc _ _
      have hstartInc : start < (pcInc s2.pred_count target).length := by
        rw [hlenInc]; exact hstart2
      -- value of the incremented list at `start`
      have hIncAtStart : 1 ≤ pcGet (pcInc s2.pred_count target) start ∧
          pcGet (pcInc s2.pred_count target) start < u32size := by
        rcases eq_or_ne start target with rfl | hne
        · rw [pcGet_pcInc_self _ _ htarget2 hincbound]
          omega
        · rw [pcGet_pcInc_other _ _ _ hne]
          exact ⟨hstartpos, hstartbound⟩
      -- reduce the goal to facts about the final state
      simp only [collapseGotoChainFuel, hw, hmb, hrec, hmb3]
      refine ⟨?_, ?_, ?_, ?_, ?_, ?_⟩
      · -- (a) sum preserved
        have e1 : (pcInc s2.pred_count target).sum = s2.pred_count.sum + 1 :=
          pcInc_sum _ _ htarget2 hincbound
        have e2 : (pcSub (pcInc s2.pred_count target) start 1).sum + 1 =
            (pcInc s2.pred_count target).sum :=
          pcSub_one_sum _ _ hstartInc hIncAtStart.1 hIncAtStart.2
        omega
      · -- (b) pointwise growth bounded by the depth
        intro v
        have hm := hmono2 v
        rcases eq_or_ne v start with rfl | hvs
        · have hv : pcGet (pcSub (pcInc s2.pred_count target) v 1) v =
              pcGet (pcInc s2.pred_count target) v - 1 :=
            pcGet_pcSub_one_self _ _ hstartInc hIncAtStart.1 hIncAtStart.2
          rw [hv]
          rcases eq_or_ne v target with rfl | hvt
          · rw [pcGet_pcInc_self _ _ htarget2 hincbound]
            omega
          · rw [pcGet_pcInc_other _ _ _ hvt]
            omega
        · rw [pcGet_pcSub_other _ _ _ _ hvs]
          rcases eq_or_ne v target with rfl | hvt
          · rw [pcGet_pcInc_self _ _ htarget2 hincbound]
            omega
          · rw [pcGet_pcInc_other _ _ _ hvt]
            omega
      · -- (c) taken-out blocks survive untouched, counters never drop
        intro v b' h1 h2
        have hvs : v ≠ start := by
          intro h
          subst h
          rw [hb] at h1
          cases h1
          simp at h2
        have h1' : (s.basic_blocks.set start (⟨[], none⟩ : BasicBlockData))[v]? = some b' := by
          rw [hget1' v hvs]
          exact h1
        obtain ⟨hgv, hgev⟩ := hpres2 v b' h1' h2
        constructor
        · show (s2.basic_blocks.set start (⟨[], some (.Goto target)⟩ :
            BasicBlockData))[v]? = some b'
          rw [List.getElem?_set_ne (fun h => hvs h.symm)]
          exact hgv
        · refine le_trans hgev ?_
          show pcGet s2.pred_count v ≤ pcGet (pcSub (pcInc s2.pred_count target) start 1) v
          rw [pcGet_pcSub_other _ _ _ _ hvs]
          rcases eq_or_ne v target with rfl | hvt
          · rw [pcGet_pcInc_self _ _ htarget2 hincbound]
            omega
          · rw [pcGet_pcInc_other _ _ _ hvt]
      · -- (d) the returned target is in range
        exact htl2
      · -- (e) block vector length preserved
        show (s2.basic_blocks.set start (⟨[], some (.Goto target)⟩ :
          BasicBlockData)).length = s.basic_blocks.length
        rw [List.length_set]
        exact hbl2
      · -- (f) counter vector length preserved
        show (pcSub (pcInc s2.pred_count target) start 1).length = s.pred_count.length
        rw [length_pcSub, length_pcInc, hpl2]

/-- Decidable form of `GotoInRange`. -/
def gotoInRangeB (s : CfgSimplifier) : Bool :=
  s.basic_blocks.all fun b =>
    match b.terminator with
    | some (.Goto w) => decide (w < s.basic_blocks.length)
    | _ => true

/-- Decidable form of `EmptyGotoPos`. -/
def emptyGotoPosB (s : CfgSimplifier) : Bool :=
  (List.range s.basic_blocks.length).all fun i =>
    match s.basic_blocks[i]? with
    | some ⟨[], some (.Goto _)⟩ => decide (1 ≤ pcGet s.pred_count i)
    | _ => true

/-- Decidable bound: every counter is far enough from `2 ^ 32` that the at
most `length + 1` increments of one collapse call cannot wrap. -/
def smallCountsB (s : CfgSimplifier) : Bool :=
  s.pred_count.all fun x => decide (x + s.basic_blocks.length + 1 < u32size)

theorem gotoInRangeB_sound {s : CfgSimplifier} (h : gotoInRangeB s = true) :
    GotoInRange s := by
  intro i b w h1 h2
  have hm : b ∈ s.basic_blocks := List.getElem?_mem h1
  have := List.all_eq_true.mp h b hm
  rw [h2] at this
  simpa using this

theorem emptyGotoPosB_sound {s : CfgSimplifier} (h : emptyGotoPosB s = true) :
    EmptyGotoPos s := by
  intro i b w h1 h2 h3
  have hi : i < s.basic_blocks.length := by
    by_contra hcon
    rw [List.getElem?_eq_none (by omega)] at h1
    cases h1
  have hmem : i ∈ List.range s.basic_blocks.length := List.mem_range.mpr hi
  have := List.all_eq_true.mp h i hmem
  rw [h1] at this
  rcases b with ⟨stmts, term⟩
  simp only at h2 h3
  subst h2
  subst h3
  simpa using this

theorem smallCountsB_sound {s : CfgSimplifier}
    (hlen : s.pred_count.length = s.basic_blocks.length)
    (h : smallCountsB s = true) :
    ∀ i, pcGet s.pred_count i + (s.basic_blocks.length + 1) < u32size := by
  intro i
  rcases lt_or_le i s.pred_count.length with hi | hi
  · have hm : s.pred_count.getD i 0 ∈ s.pred_count := by
      rw [List.getD_eq_getElem s.pred_count 0 hi]
      exact List.getElem_mem hi
    have := List.all_eq_true.mp h _ hm
    simp only [decide_eq_true_eq] at this
    unfold pcGet
    omega
  · unfold pcGet
    rw [List.getD_eq_default _ _ hi]
    rcases Nat.eq_zero_or_pos s.pred_count.length with h0 | h0
    · rw [hlen] at h0
      rw [h0]
      norm_num [u32size]
    · obtain ⟨x, hx⟩ := List.exists_mem_of_length_pos h0
      have := List.all_eq_true.mp h x hx
      simp only [decide_eq_true_eq] at this
      omega

/-- C9: every call to `collapse_goto_chain` leaves the sum of `pred_count`
over all blocks unchanged — each successor-slot rewrite increments the new
target's counter by exactly one and decrements the old slot block's counter
by exactly one, including when the chain collapses back onto a cycle.
The hypotheses are the well-formedness the driver guarantees: the counter
vector is parallel to the block vector, the slot and all goto targets are in
range, every statement-free goto block has a predecessor counted (so the
`u32` decrement cannot underflow), and no counter is close enough to
`2 ^ 32` for an increment to wrap. -/
theorem claim_C9_collapse_goto_chain_preserves_pred_count_sum
    (s : CfgSimplifier) (start : Nat) (changed : Bool)
    (hlen : s.pred_count.length = s.basic_blocks.length)
    (hstart : start < s.basic_blocks.length)
    (h1 : gotoInRangeB s = true)
    (h2 : emptyGotoPosB s = true)
    (h3 : smallCountsB s = true) :
    (collapse_goto_chain s start changed).1.pred_count.sum = s.pred_count.sum := by
  unfold collapse_goto_chain
  exact (collapseFuel_spec (s.basic_blocks.length + 1) s start changed hlen hstart
    (gotoInRangeB_sound h1) (emptyGotoPosB_sound h2) (smallCountsB_sound hlen h3)).1

/-- Witness for C9 at a concrete chain `B0: [] → Goto B1; B1: [] → Goto B2;
B2: [3] → Return` with counters `[1, 1, 1]`: the collapse rewrites the slot
to `B2` and the counter sum stays 3. -/
theorem claim_C9_witness :
    (collapse_goto_chain ⟨[⟨[], some (.Goto 1)⟩, ⟨[], some (.Goto 2)⟩,
        ⟨[3], some .Return⟩], [1, 1, 1]⟩ 0 false).1.pred_count.sum =
      ([1, 1, 1] : List Nat).sum :=
  claim_C9_collapse_goto_chain_preserves_pred_count_sum
    ⟨[⟨[], some (.Goto 1)⟩, ⟨[], some (.Goto 2)⟩, ⟨[3], some .Return⟩], [1, 1, 1]⟩
    0 false (by decide) (by decide) (by decide) (by decide) (by decide)

/-! ### C10 / C5: `remove_dead_blocks` machinery -/

theorem listSwap_length {α : Type} (l : List α) (i j : Nat) :
    (listSwap l i j).length = l.length := by
  unfold listSwap
  cases l[i]? <;> cases l[j]? <;> simp [List.length_set]

theorem listSwap_get_snd {α : Type} (l : List α) (i j : Nat)
    (hi : i < l.length) (hj : j < l.length) : (listSwap l i j)[j]? = l[i]? := by
  unfold listSwap
  rw [List.getElem?_eq_getElem hi, List.getElem?_eq_getElem hj]
  rw [List.getElem?_set_eq_of_lt _ (by rw [List.length_set]; exact hj)]

theorem listSwap_get_other {α : Type} (l : List α) (i j v : Nat)
    (hvi : v ≠ i) (hvj : v ≠ j) : (listSwap l i j)[v]? = l[v]? := by
  unfold listSwap
  cases hgi : l[i]? with
  | none => rfl
  | some a =>
    cases hgj : l[j]? with
    | none => rfl
    | some b =>
      rw [List.getElem?_set_ne (fun h => hvj h.symm), List.getElem?_set_ne (fun h => hvi h.symm)]

/-- Full behaviour of the compaction loop of `remove_dead_blocks`, by
induction over the (strictly increasing) list of live indices: the final
`used` counter, the remap entries for live and untouched indices, the
stability of already-compacted slots, and the landing position of each live
block. -/
theorem compactGo_spec :
    ∀ (A : List Nat) (repl : List Nat) (used : Nat) (bl : List BasicBlockData),
      List.Pairwise (· < ·) A →
      (∀ a ∈ A, used ≤ a) →
      (∀ a ∈ A, a < bl.length) →
      (∀ a ∈ A, a < repl.length) →
      (compactGo A repl used bl).2.1 = used + A.length ∧
      (∀ j a, A[j]? = some a → (compactGo A repl used bl).1[a]? = some (used + j)) ∧
      (∀ v, (∀ a ∈ A, v ≠ a) → (compactGo A repl used bl).1[v]? = repl[v]?) ∧
      (∀ j, j < used → (compactGo A repl used bl).2.2[j]? = bl[j]?) ∧
      (∀ j a, A[j]? = some a → (compactGo A repl used bl).2.2[used + j]? = bl[a]?) ∧
      (compactGo A repl used bl).2.2.length = bl.length := by
  intro A
  induction A with
  | nil =>
    intro repl used bl _ _ _ _
    refine ⟨by simp [compactGo], ?_, ?_, ?_, ?_, rfl⟩
    · intro j a hj
      simp at hj
    · intro v _
      rfl
    · intro j _
      rfl
    · intro j a hj
      simp at hj
  | cons a rest ih =>
    intro repl used bl hpw hlb hblr hrplr
    have hrest_pw : List.Pairwise (· < ·) rest := (List.pairwise_cons.mp hpw).2
    have halt : ∀ b ∈ rest, a < b := (List.pairwise_cons.mp hpw).1
    have haused : used ≤ a := hlb a (List.mem_cons_self a rest)
    have habl : a < bl.length := hblr a (List.mem_cons_self a rest)
    have harepl : a < repl.length := hrplr a (List.mem_cons_self a rest)
    have husedbl : used < bl.length := lt_of_le_of_lt haused habl
    -- the state after handling `a`
    have hbl1len : (if a = used then bl else listSwap bl a used).length = bl.length := by
      split
      · rfl
      · exact listSwap_length bl a used
    have hbl1_used : (if a = used then bl else listSwap bl a used)[used]? = bl[a]? := by
      split
      · rename_i h
        rw [h]
      · exact listSwap_get_snd bl a used habl husedbl
    have hbl1_other : ∀ v, v ≠ a → v ≠ used →
        (if a = used then bl else listSwap bl a used)[v]? = bl[v]? := by
      intro v hva hvu
      split
      · rfl
      · exact listSwap_get_other bl a used v hva hvu
    have hrepl1_a : (repl.set a used)[a]? = some used :=
      List.getElem?_set_eq_of_lt _ harepl
    have hrepl1_other : ∀ v, v ≠ a → (repl.set a used)[v]? = repl[v]? :=
      fun v hv => List.getElem?_set_ne (fun h => hv h.symm)
    obtain ⟨ihused, ihlive, ihother, ihlow, ihland, ihlen⟩ :=
      ih (repl.set a used) (used + 1) (if a = used then bl else listSwap bl a used)
        hrest_pw
        (fun b hb => Nat.succ_le_of_lt (lt_of_le_of_lt haused (halt b hb)))
        (fun b hb => by rw [hbl1len]; exact hblr b (List.mem_cons_of_mem a hb))
        (fun b hb => by rw [List.length_set]; exact hrplr b (List.mem_cons_of_mem a hb))
    have hstep : compactGo (a :: rest) repl used bl =
        compactGo rest (repl.set a used) (used + 1)
          (if a = used then bl else listSwap bl a used) := rfl
    rw [hstep]
    refine ⟨?_, ?_, ?_, ?_, ?_, ?_⟩
    · rw [ihused]
      simp
      omega
    · intro j a' hj
      cases j with
      | zero =>
        simp at hj
        subst hj
        have hanotin : ∀ b ∈ rest, a ≠ b := fun b hb => Nat.ne_of_lt (halt b hb)
        rw [ihother a hanotin, hrepl1_a]
        rfl
      | succ j =>
        rw [List.getElem?_cons_succ] at hj
        have := ihlive j a' hj
        rw [this]
        congr 1
        omega
    · intro v hv
      have hvrest : ∀ b ∈ rest, v ≠ b := fun b hb => hv b (List.mem_cons_of_mem a hb)
      have hva : v ≠ a := hv a (List.mem_cons_self a rest)
      rw [ihother v hvrest, hrepl1_other v hva]
    · intro j hj
      have hj1 : j < used + 1 := Nat.lt_succ_of_lt hj
      rw [ihlow j hj1]
      exact hbl1_other j (fun h => by omega) (fun h => by omega)
    · intro j a' hj
      cases j with
      | zero =>
        simp at hj
        subst hj
        have : used + 0 = used := rfl
        rw [this, ihlow used (Nat.lt_succ_self used)]
        exact hbl1_used
      | succ j =>
        rw [List.getElem?_cons_succ] at hj
        have hland := ihland j a' hj
        have : used + (j + 1) = (used + 1) + j := by omega
        rw [this, hland]
        refine hbl1_other a' ?_ ?_
        · exact Nat.ne_of_gt (halt a' (List.getElem?_mem hj))
        · have := halt a' (List.getElem?_mem hj)
          omega
    · rw [ihlen, hbl1len]

/-- One CFG edge: `v` is listed as a successor of the block at `u`. -/
def cfgEdge (blocks : List BasicBlockData) (u v : Nat) : Prop :=
  v ∈ succsIdx blocks u

/-- Reachability from the entry block, the specification of what
`traversal::preorder` visits. -/
def Reachable (blocks : List BasicBlockData) (v : Nat) : Prop :=
  Relation.ReflTransGen (cfgEdge blocks) 0 v

theorem preorderGo_mono (blocks : List BasicBlockData) :
    ∀ (fuel : Nat) (wl vis : List Nat), vis ⊆ preorderGo blocks fuel wl vis := by
  intro fuel
  induction fuel with
  | zero => intro wl vis; exact fun x h => h
  | succ fuel ih =>
    intro wl vis
    cases wl with
    | nil => exact fun x h => h
    | cons v rest =>
      simp only [preorderGo]
      split
      · exact ih rest vis
      · exact fun x h => ih _ (v :: vis) (List.mem_cons_of_mem v h)

theorem preorderGo_sound (blocks : List BasicBlockData) :
    ∀ (fuel : Nat) (wl vis : List Nat),
      (∀ u ∈ wl, Reachable blocks u) → (∀ u ∈ vis, Reachable blocks u) →
      ∀ x ∈ preorderGo blocks fuel wl vis, Reachable blocks x := by
  intro fuel
  induction fuel with
  | zero =>
    intro wl vis _ hvis x hx
    exact hvis x hx
  | succ fuel ih =>
    intro wl vis hwl hvis
    cases wl with
    | nil => exact hvis
    | cons v rest =>
      simp only [preorderGo]
      split
      · exact ih rest vis (fun u hu => hwl u (List.mem_cons_of_mem v hu)) hvis
      · have hv : Reachable blocks v := hwl v (List.mem_cons_self v rest)
        refine ih _ (v :: vis) ?_ ?_
        · intro u hu
          rcases List.mem_append.mp hu with hu | hu
          · exact Relation.ReflTransGen.tail hv (List.mem_reverse.mp hu)
          · exact hwl u (List.mem_cons_of_mem v hu)
        · intro u hu
          rcases List.mem_cons.mp hu with rfl | hu
          · exact hv
          · exact hvis u hu

/-- Weight of the not-yet-visited blocks, used to show the preorder fuel is
sufficient: each fresh visit removes its contribution. -/
def unvisitedWeight (blocks : List BasicBlockData) (vis : List Nat) : Nat :=
  ∑ v ∈ (Finset.range blocks.length).filter (fun v => v ∉ vis),
    (1 + (succsIdx blocks v).length)

theorem unvisitedWeight_cons (blocks : List BasicBlockData) (vis : List Nat)
    (v : Nat) (hv : v < blocks.length) (hnv : v ∉ vis) :
    unvisitedWeight blocks vis =
      unvisitedWeight blocks (v :: vis) + (1 + (succsIdx blocks v).length) := by
  unfold unvisitedWeight
  have hf : (Finset.range blocks.length).filter (fun x => x ∉ (v :: vis)) =
      ((Finset.range blocks.length).filter (fun x => x ∉ vis)).erase v := by
    ext x
    simp only [Finset.mem_filter, Finset.mem_erase, Finset.mem_range, List.mem_cons]
    tauto
  rw [hf]
  have hvmem : v ∈ (Finset.range blocks.length).filter (fun x => x ∉ vis) := by
    simp only [Finset.mem_filter, Finset.mem_range]
    exact ⟨hv, hnv⟩
  rw [Finset.sum_erase_add _ _ hvmem]

theorem succCount_eq (blocks : List BasicBlockData) :
    ∑ v ∈ Finset.range blocks.length, (succsIdx blocks v).length = succCount blocks := by
  induction blocks with
  | nil => simp [succCount]
  | cons b bs ih =>
    have hlen : (b :: bs).length = bs.length + 1 := rfl
    rw [hlen, Finset.sum_range_succ']
    have h0 : succsIdx (b :: bs) 0 = succsOf b := by simp [succsIdx]
    have hs : ∀ v, succsIdx (b :: bs) (v + 1) = succsIdx bs v := fun v => by
      simp [succsIdx]
    simp only [h0, hs]
    rw [ih]
    show succCount bs + (succsOf b).length = succCount (b :: bs)
    show succCount bs + (succsOf b).length = (succsOf b).length + succCount bs
    omega

/-- Fuel sufficiency and closure: with fuel at least the remaining measure,
the preorder worklist runs dry, every worklist entry ends up visited, and
the visited set is closed under successors. -/
theorem preorderGo_closed (blocks : List BasicBlockData) :
    ∀ (fuel : Nat) (wl vis : List Nat),
      wl.length + unvisitedWeight blocks vis ≤ fuel →
      (∀ u ∈ wl, u < blocks.length) →
      (∀ u ∈ vis, ∀ t ∈ succsIdx blocks u, t ∈ vis ∨ t ∈ wl) →
      (∀ u ∈ preorderGo blocks fuel wl vis, ∀ t ∈ succsIdx blocks u,
        t < blocks.length) →
      (∀ u ∈ wl, u ∈ preorderGo blocks fuel wl vis) ∧
      (∀ u ∈ preorderGo blocks fuel wl vis, ∀ t ∈ succsIdx blocks u,
        t ∈ preorderGo blocks fuel wl vis) := by
  intro fuel
  induction fuel with
  | zero =>
    intro wl vis hm hwr hcl _
    have hwl : wl = [] := by
      cases wl with
      | nil => rfl
      | cons a l => simp at hm
    subst hwl
    refine ⟨fun u hu => absurd hu (List.not_mem_nil u), ?_⟩
    intro u hu t ht
    rcases hcl u hu t ht with h | h
    · exact h
    · exact absurd h (List.not_mem_nil t)
  | succ fuel ih =>
    intro wl vis hm hwr hcl htgts
    cases wl with
    | nil =>
      refine ⟨fun u hu => absurd hu (List.not_mem_nil u), ?_⟩
      intro u hu t ht
      rcases hcl u hu t ht with h | h
      · exact h
      · exact absurd h (List.not_mem_nil t)
    | cons v rest =>
      by_cases hv : v ∈ vis
      · have hgo : preorderGo blocks (fuel + 1) (v :: rest) vis =
            preorderGo blocks fuel rest vis := by
          simp only [preorderGo, if_pos hv]
        rw [hgo] at htgts ⊢
        have hm' : rest.length + unvisitedWeight blocks vis ≤ fuel := by
          simp only [List.length_cons] at hm
          omega
        obtain ⟨hin, hclosed⟩ := ih rest vis hm'
          (fun u hu => hwr u (List.mem_cons_of_mem v hu))
          (by
            intro u hu t ht
            rcases hcl u hu t ht with h | h
            · exact Or.inl h
            · rcases List.mem_cons.mp h with rfl | h
              · exact Or.inl hv
              · exact Or.inr h)
          htgts
        refine ⟨?_, hclosed⟩
        intro u hu
        rcases List.mem_cons.mp hu with rfl | hu
        · exact preorderGo_mono blocks fuel rest vis hv
        · exact hin u hu
      · have hgo : preorderGo blocks (fuel + 1) (v :: rest) vis =
            preorderGo blocks fuel ((succsIdx blocks v).reverse ++ rest) (v :: vis) := by
          simp only [preorderGo, if_neg hv]
        rw [hgo] at htgts ⊢
        have hvlen : v < blocks.length := hwr v (List.mem_cons_self v rest)
        have hvres : v ∈ preorderGo blocks fuel
            ((succsIdx blocks v).reverse ++ rest) (v :: vis) :=
          preorderGo_mono blocks fuel _ (v :: vis) (List.mem_cons_self v vis)
        have hvs : ∀ t ∈ succsIdx blocks v, t < blocks.length := htgts v hvres
        have hm' : ((succsIdx blocks v).reverse ++ rest).length +
            unvisitedWeight blocks (v :: vis) ≤ fuel := by
          have := unvisitedWeight_cons blocks vis v hvlen hv
          simp only [List.length_cons] at hm
          simp only [List.length_append, List.length_reverse]
          omega
        obtain ⟨hin, hclosed⟩ := ih ((succsIdx blocks v).reverse ++ rest) (v :: vis) hm'
          (by
            intro u hu
            rcases List.mem_append.mp hu with hu | hu
            · exact hvs u (List.mem_reverse.mp hu)
            · exact hwr u (List.mem_cons_of_mem v hu))
          (by
            intro u hu t ht
            rcases List.mem_cons.mp hu with rfl | hu
            · exact Or.inr (List.mem_append.mpr (Or.inl (List.mem_reverse.mpr ht)))
            · rcases hcl u hu t ht with h | h
              · exact Or.inl (List.mem_cons_of_mem v h)
              · rcases List.mem_cons.mp h with rfl | h
                · exact Or.inl (List.mem_cons_self t vis)
                · exact Or.inr (List.mem_append.mpr (Or.inr h)))
          htgts
        refine ⟨?_, hclosed⟩
        intro u hu
        rcases List.mem_cons.mp hu with rfl | hu
        · exact hvres
        · exact hin u (List.mem_append.mpr (Or.inr hu))

/-- Decidable hypothesis: every successor of every preorder-visited block is
in range (a dangling edge from a reachable block would be an indexing panic
in the source). -/
def seenTgtsInRangeB (blocks : List BasicBlockData) : Bool :=
  (preorderSeen blocks).all fun v =>
    (succsIdx blocks v).all fun t => decide (t < blocks.length)

theorem seenTgtsInRangeB_sound {blocks : List BasicBlockData}
    (h : seenTgtsInRangeB blocks = true) :
    ∀ u ∈ preorderSeen blocks, ∀ t ∈ succsIdx blocks u, t < blocks.length := by
  intro u hu t ht
  have h1 := List.all_eq_true.mp h u hu
  have h2 := List.all_eq_true.mp h1 t ht
  simpa using h2

theorem preorderSeen_entry_and_closed (blocks : List BasicBlockData)
    (h0 : 0 < blocks.length) (htgts : seenTgtsInRangeB blocks = true) :
    0 ∈ preorderSeen blocks ∧
    (∀ u ∈ preorderSeen blocks, ∀ t ∈ succsIdx blocks u, t ∈ preorderSeen blocks) := by
  have hmeasure : ([0] : List Nat).length + unvisitedWeight blocks [] ≤
      preorderFuel blocks := by
    unfold unvisitedWeight preorderFuel
    have : (Finset.range blocks.length).filter (fun v => v ∉ ([] : List Nat)) =
        Finset.range blocks.length := by
      ext x
      simp
    rw [this, Finset.sum_add_distrib, Finset.sum_const, Finset.card_range, succCount_eq]
    simp
    omega
  obtain ⟨hin, hclosed⟩ := preorderGo_closed blocks (preorderFuel blocks) [0] []
    hmeasure
    (by intro u hu; rcases List.mem_cons.mp hu with rfl | hu
        · exact h0
        · exact absurd hu (List.not_mem_nil u))
    (fun u hu => absurd hu (List.not_mem_nil u))
    (seenTgtsInRangeB_sound htgts)
  exact ⟨hin 0 (List.mem_cons_self 0 []), hclosed⟩

/-- Soundness: everything the preorder visits is reachable from the entry. -/
theorem preorderSeen_reachable (blocks : List BasicBlockData) :
    ∀ v ∈ preorderSeen blocks, Reachable blocks v := by
  intro v hv
  refine preorderGo_sound blocks (preorderFuel blocks) [0] [] ?_ ?_ v hv
  · intro u hu
    rcases List.mem_cons.mp hu with rfl | hu
    · exact Relation.ReflTransGen.refl
    · exact absurd hu (List.not_mem_nil u)
  · intro u hu
    exact absurd hu (List.not_mem_nil u)

/-- Completeness: everything reachable from the entry is visited. -/
theorem reachable_mem_preorderSeen (blocks : List BasicBlockData)
    (h0 : 0 < blocks.length) (htgts : seenTgtsInRangeB blocks = true) :
    ∀ v, Reachable blocks v → v ∈ preorderSeen blocks := by
  obtain ⟨hentry, hclosed⟩ := preorderSeen_entry_and_closed blocks h0 htgts
  intro v hv
  induction hv with
  | refl => exact hentry
  | tail _ hedge ih => exact hclosed _ ih _ hedge

theorem seenSorted_pairwise (blocks : List BasicBlockData) :
    (seenSorted blocks).Pairwise (· < ·) :=
  (List.pairwise_lt_range blocks.length).filter _

theorem mem_seenSorted_iff (blocks : List BasicBlockData) (v : Nat) :
    v ∈ seenSorted blocks ↔ v < blocks.length ∧ v ∈ preorderSeen blocks := by
  unfold seenSorted
  simp [List.mem_filter, List.mem_range]

theorem sorted_head_zero {l : List Nat} (hpw : l.Pairwise (· < ·)) (h0 : 0 ∈ l) :
    ∃ t, l = 0 :: t := by
  cases l with
  | nil => cases h0
  | cons a t =>
    rcases List.mem_cons.mp h0 with rfl | h
    · exact ⟨t, rfl⟩
    · have := (List.pairwise_cons.mp hpw).1 0 h
      omega

theorem zero_mem_preorderSeen (blocks : List BasicBlockData) :
    0 ∈ preorderSeen blocks := by
  unfold preorderSeen preorderFuel
  simp only [preorderGo]
  rw [if_neg (List.not_mem_nil 0)]
  exact preorderGo_mono blocks _ _ _ (List.mem_cons_self 0 [])

/-- Decidable hypothesis of C5/C10: every preorder-reachable block still has
`some` terminator (the source's `terminator_mut()` would panic otherwise). -/
def reachTermB (blocks : List BasicBlockData) : Bool :=
  (preorderSeen blocks).all fun v =>
    match blocks[v]? with
    | some b => b.terminator.isSome
    | none => true

/-- C10: `remove_dead_blocks` keeps the entry block at index 0 — block 0 is
always visited by the reachability preorder, its replacement index is 0, and
the compaction never swaps it out of slot 0, so the output's slot 0 holds the
original entry block with its successors rewritten through the remap. -/
theorem claim_C10_remove_dead_blocks_keeps_entry
    (blocks : List BasicBlockData) (b0 : BasicBlockData)
    (hb0 : blocks[0]? = some b0)
    (_hterm : reachTermB blocks = true) :
    0 ∈ preorderSeen blocks ∧
    (compactGo (seenSorted blocks) (List.range blocks.length) 0 blocks).1[0]? = some 0 ∧
    (remove_dead_blocks blocks)[0]? =
      some { b0 with terminator := b0.terminator.map (fun t => t.mapSuccs (fun tgt =>
        (compactGo (seenSorted blocks) (List.range blocks.length) 0 blocks).1.getD
          tgt tgt)) } := by
  have h0 : 0 < blocks.length := by
    cases blocks with
    | nil => simp at hb0
    | cons b bs => simp
  have hentry := zero_mem_preorderSeen blocks
  have hpw := seenSorted_pairwise blocks
  have h0A : 0 ∈ seenSorted blocks := (mem_seenSorted_iff blocks 0).mpr ⟨h0, hentry⟩
  obtain ⟨tail, hA⟩ := sorted_head_zero hpw h0A
  have htail_pw : tail.Pairwise (· < ·) := by
    rw [hA] at hpw
    exact (List.pairwise_cons.mp hpw).2
  have htail_pos : ∀ a ∈ tail, 0 < a := by
    rw [hA] at hpw
    exact (List.pairwise_cons.mp hpw).1
  have htail_lt : ∀ a ∈ tail, a < blocks.length := by
    intro a ha
    have : a ∈ seenSorted blocks := by
      rw [hA]
      exact List.mem_cons_of_mem 0 ha
    exact ((mem_seenSorted_iff blocks a).mp this).1
  have hstep : compactGo (seenSorted blocks) (List.range blocks.length) 0 blocks =
      compactGo tail ((List.range blocks.length).set 0 0) 1 blocks := by
    rw [hA]
    rfl
  obtain ⟨hused, hlive, hother, hlow, hland, hlen⟩ :=
    compactGo_spec tail ((List.range blocks.length).set 0 0) 1 blocks
      htail_pw
      (fun a ha => htail_pos a ha)
      htail_lt
      (fun a ha => by
        rw [List.length_set, List.length_range]
        exact htail_lt a ha)
  refine ⟨hentry, ?_, ?_⟩
  · rw [hstep]
    rw [hother 0 (fun a ha => Nat.ne_of_lt (htail_pos a ha))]
    rw [List.getElem?_set_eq_of_lt _ (by rw [List.length_range]; exact h0)]
  · unfold remove_dead_blocks
    rw [hstep]
    have hslot0 : (compactGo tail ((List.range blocks.length).set 0 0) 1 blocks).2.2[0]? =
        some b0 := by
      rw [hlow 0 Nat.one_pos]
      exact hb0
    have husedpos : 0 < (compactGo tail ((List.range blocks.length).set 0 0) 1 blocks).2.1 := by
      rw [hused]
      omega
    rw [List.getElem?_map, List.getElem?_take_of_lt husedpos, hslot0]
    rfl

/-- Witness for C10 at a CFG with a dead block:
`B0: [1] → Goto B1; B1: [] → Return; B2 (dead): [9] → Return`. -/
theorem claim_C10_witness :
    0 ∈ preorderSeen [⟨[1], some (.Goto 1)⟩, ⟨[], some .Return⟩, ⟨[9], some .Return⟩] ∧
    (compactGo (seenSorted [⟨[1], some (.Goto 1)⟩, ⟨[], some .Return⟩, ⟨[9], some .Return⟩])
      (List.range ([⟨[1], some (.Goto 1)⟩, ⟨[], some .Return⟩,
        ⟨[9], some .Return⟩] : List BasicBlockData).length) 0
      [⟨[1], some (.Goto 1)⟩, ⟨[], some .Return⟩, ⟨[9], some .Return⟩]).1[0]? = some 0 ∧
    (remove_dead_blocks [⟨[1], some (.Goto 1)⟩, ⟨[], some .Return⟩,
        ⟨[9], some .Return⟩])[0]? =
      some { (⟨[1], some (.Goto 1)⟩ : BasicBlockData) with
        terminator := (some (TerminatorKind.Goto 1)).map (fun t => t.mapSuccs (fun tgt =>
          (compactGo (seenSorted [⟨[1], some (.Goto 1)⟩, ⟨[], some .Return⟩,
              ⟨[9], some .Return⟩])
            (List.range ([⟨[1], some (.Goto 1)⟩, ⟨[], some .Return⟩,
              ⟨[9], some .Return⟩] : List BasicBlockData).length) 0
            [⟨[1], some (.Goto 1)⟩, ⟨[], some .Return⟩, ⟨[9], some .Return⟩]).1.getD
            tgt tgt)) } :=
  claim_C10_remove_dead_blocks_keeps_entry
    [⟨[1], some (.Goto 1)⟩, ⟨[], some .Return⟩, ⟨[9], some .Return⟩]
    ⟨[1], some (.Goto 1)⟩ (by decide) (by decide)

theorem mapSuccs_successors (f : Nat → Nat) (t : TerminatorKind) :
    (t.mapSuccs f).successors = t.successors.map f := by
  cases t <;> simp [TerminatorKind.mapSuccs, TerminatorKind.successors]

theorem getElem?_some_lt {α : Type} {l : List α} {i : Nat} {a : α}
    (h : l[i]? = some a) : i < l.length := by
  by_contra hc
  rw [List.getElem?_eq_none (by omega)] at h
  cases h

theorem seenSorted_nodup (blocks : List BasicBlockData) : (seenSorted blocks).Nodup :=
  (seenSorted_pairwise blocks).imp (fun h => Nat.ne_of_lt h)

theorem seenSorted_length_le (blocks : List BasicBlockData) :
    (seenSorted blocks).length ≤ blocks.length := by
  unfold seenSorted
  calc ((List.range blocks.length).filter _).length
      ≤ (List.range blocks.length).length := List.length_filter_le _ _
    _ = blocks.length := List.length_range _

theorem reachable_lt (blocks : List BasicBlockData) (h0 : 0 < blocks.length)
    (htgts : seenTgtsInRangeB blocks = true) :
    ∀ v, Reachable blocks v → v < blocks.length := by
  intro v hv
  induction hv with
  | refl => exact h0
  | tail h1 h2 _ =>
    rename_i b c _
    have hbseen := reachable_mem_preorderSeen blocks h0 htgts b h1
    exact seenTgtsInRangeB_sound htgts b hbseen c h2

/-- The successor rewrite applied to each surviving block by
`remove_dead_blocks` (`*target = replacements[target.index()]`). -/
def rdbRewrite (repl : List Nat) (b : BasicBlockData) : BasicBlockData :=
  { b with terminator := b.terminator.map (fun t => t.mapSuccs (fun tgt =>
      repl.getD tgt tgt)) }

/-- The `remove_dead_blocks` body, unfolded. -/
theorem remove_dead_blocks_eq (blocks : List BasicBlockData) :
    remove_dead_blocks blocks =
      ((compactGo (seenSorted blocks) (List.range blocks.length) 0 blocks).2.2.take
        (compactGo (seenSorted blocks) (List.range blocks.length) 0 blocks).2.1).map
        (rdbRewrite
          (compactGo (seenSorted blocks) (List.range blocks.length) 0 blocks).1) := rfl

theorem succsOf_rdbRewrite (repl : List Nat) (b : BasicBlockData) :
    succsOf (rdbRewrite repl b) = (succsOf b).map (fun tgt => repl.getD tgt tgt) := by
  cases hbt : b.terminator with
  | none => simp [rdbRewrite, succsOf, hbt]
  | some tk => simp [rdbRewrite, succsOf, hbt, mapSuccs_successors]

/-- C5: after `remove_dead_blocks` on a CFG whose reachable blocks all still
have a terminator (and no dangling reachable edge), the output has exactly
one slot per preorder-reachable block (indices contiguous `0..used_blocks`),
the block landing in slot `j` is the `j`-th live block of the input with
every successor rewritten through the old-to-new remap, and every remaining
block is reachable from block 0 in the output CFG. -/
theorem claim_C5_remove_dead_blocks_reachable_contiguous_remapped
    (blocks : List BasicBlockData)
    (h0 : 0 < blocks.length)
    (_hterm : reachTermB blocks = true)
    (htgts : seenTgtsInRangeB blocks = true) :
    (remove_dead_blocks blocks).length = (seenSorted blocks).length ∧
    (compactGo (seenSorted blocks) (List.range blocks.length) 0 blocks).2.1 =
      (seenSorted blocks).length ∧
    (∀ (j a : Nat), (seenSorted blocks)[j]? = some a →
      ∃ b : BasicBlockData, blocks[a]? = some b ∧
        (remove_dead_blocks blocks)[j]? = some (rdbRewrite
          (compactGo (seenSorted blocks) (List.range blocks.length) 0 blocks).1 b)) ∧
    (∀ j, j < (remove_dead_blocks blocks).length →
      Relation.ReflTransGen (cfgEdge (remove_dead_blocks blocks)) 0 j) := by
  obtain ⟨hused, hlive, hother, hlow, hland, hlen2⟩ :=
    compactGo_spec (seenSorted blocks) (List.range blocks.length) 0 blocks
      (seenSorted_pairwise blocks)
      (fun a _ => Nat.zero_le a)
      (fun a ha => ((mem_seenSorted_iff blocks a).mp ha).1)
      (fun a ha => by
        rw [List.length_range]
        exact ((mem_seenSorted_iff blocks a).mp ha).1)
  rw [Nat.zero_add] at hused
  have houtlen : (remove_dead_blocks blocks).length = (seenSorted blocks).length := by
    rw [remove_dead_blocks_eq, List.length_map, List.length_take, hused, hlen2]
    exact Nat.min_eq_left (seenSorted_length_le blocks)
  -- part (ii): each output slot holds its live block, successors remapped
  have hpart2 : ∀ (j a : Nat), (seenSorted blocks)[j]? = some a →
      ∃ b : BasicBlockData, blocks[a]? = some b ∧
        (remove_dead_blocks blocks)[j]? = some (rdbRewrite
          (compactGo (seenSorted blocks) (List.range blocks.length) 0 blocks).1 b) := by
    intro j a hja
    have hjA : j < (seenSorted blocks).length := getElem?_some_lt hja
    have haA : a ∈ seenSorted blocks := List.getElem?_mem hja
    have haLt : a < blocks.length := ((mem_seenSorted_iff blocks a).mp haA).1
    refine ⟨blocks[a], List.getElem?_eq_getElem haLt, ?_⟩
    rw [remove_dead_blocks_eq, List.getElem?_map,
      List.getElem?_take_of_lt (by rw [hused]; exact hjA)]
    have hl := hland j a hja
    rw [Nat.zero_add] at hl
    rw [hl, List.getElem?_eq_getElem haLt]
    rfl
  -- identify the entry's position
  have hentry := zero_mem_preorderSeen blocks
  have h0A : 0 ∈ seenSorted blocks := (mem_seenSorted_iff blocks 0).mpr ⟨h0, hentry⟩
  obtain ⟨tail, hA⟩ := sorted_head_zero (seenSorted_pairwise blocks) h0A
  have htail_pos : ∀ a ∈ tail, 0 < a := by
    have hpw := seenSorted_pairwise blocks
    rw [hA] at hpw
    exact (List.pairwise_cons.mp hpw).1
  have hposzero : ∀ j, (seenSorted blocks)[j]? = some 0 → j = 0 := by
    intro j hj
    cases j with
    | zero => rfl
    | succ j =>
      rw [hA, List.getElem?_cons_succ] at hj
      have := htail_pos 0 (List.getElem?_mem hj)
      omega
  -- every reachable block appears among the live indices
  have hreachA : ∀ v, Reachable blocks v → v ∈ seenSorted blocks := fun v hv =>
    (mem_seenSorted_iff blocks v).mpr
      ⟨reachable_lt blocks h0 htgts v hv,
        reachable_mem_preorderSeen blocks h0 htgts v hv⟩
  -- an input edge between live blocks becomes an output edge between their slots
  have hedgeNew : ∀ u j t jt, (seenSorted blocks)[j]? = some u →
      t ∈ succsIdx blocks u → (seenSorted blocks)[jt]? = some t →
      cfgEdge (remove_dead_blocks blocks) j jt := by
    intro u j t jt hju hts hjt
    obtain ⟨b, hb, hout⟩ := hpart2 j u hju
    have h1 : succsIdx (remove_dead_blocks blocks) j =
        succsOf (rdbRewrite
          (compactGo (seenSorted blocks) (List.range blocks.length) 0 blocks).1 b) := by
      unfold succsIdx
      rw [hout]
    have h2 := succsOf_rdbRewrite
      (compactGo (seenSorted blocks) (List.range blocks.length) 0 blocks).1 b
    have hts' : t ∈ succsOf b := by
      unfold succsIdx at hts
      rw [hb] at hts
      exact hts
    have hrepl : (compactGo (seenSorted blocks) (List.range blocks.length) 0
        blocks).1.getD t t = jt := by
      have := hlive jt t hjt
      rw [Nat.zero_add] at this
      rw [List.getD_eq_getElem?_getD, this]
      rfl
    show jt ∈ succsIdx (remove_dead_blocks blocks) j
    rw [h1, h2]
    exact List.mem_map.mpr ⟨t, hts', hrepl⟩
  -- reachability transfers slot by slot
  have hmain : ∀ v, Reachable blocks v → ∀ j, (seenSorted blocks)[j]? = some v →
      Relation.ReflTransGen (cfgEdge (remove_dead_blocks blocks)) 0 j := by
    intro v hv
    induction hv with
    | refl =>
      intro j hj
      rw [hposzero j hj]
    | tail h1 h2 ih =>
      rename_i b c
      intro j hj
      have hbA : b ∈ seenSorted blocks := hreachA b h1
      obtain ⟨jb, hjb⟩ := (List.mem_iff_getElem?).mp hbA
      exact Relation.ReflTransGen.tail (ih jb hjb) (hedgeNew b jb c j hjb h2 hj)
  refine ⟨houtlen, hused, hpart2, ?_⟩
  intro j hjlen
  rw [houtlen] at hjlen
  have hja : (seenSorted blocks)[j]? = some ((seenSorted blocks).get ⟨j, hjlen⟩) :=
    List.getElem?_eq_getElem hjlen
  have haA : (seenSorted blocks).get ⟨j, hjlen⟩ ∈ seenSorted blocks :=
    List.getElem_mem hjlen
  have hreach : Reachable blocks ((seenSorted blocks).get ⟨j, hjlen⟩) :=
    preorderSeen_reachable blocks _ ((mem_seenSorted_iff blocks _).mp haA).2
  exact hmain _ hreach j hja

/-- Witness for C5 at `B0: [7] → Goto B1; B1: [8] → Return;
B2 (dead): [9] → Goto B0`. -/
theorem claim_C5_witness :
    (remove_dead_blocks [⟨[7], some (.Goto 1)⟩, ⟨[8], some .Return⟩,
        ⟨[9], some (.Goto 0)⟩]).length =
      (seenSorted [⟨[7], some (.Goto 1)⟩, ⟨[8], some .Return⟩,
        ⟨[9], some (.Goto 0)⟩]).length ∧
    (compactGo (seenSorted [⟨[7], some (.Goto 1)⟩, ⟨[8], some .Return⟩,
        ⟨[9], some (.Goto 0)⟩])
      (List.range ([⟨[7], some (.Goto 1)⟩, ⟨[8], some .Return⟩,
        ⟨[9], some (.Goto 0)⟩] : List BasicBlockData).length) 0
      [⟨[7], some (.Goto 1)⟩, ⟨[8], some .Return⟩, ⟨[9], some (.Goto 0)⟩]).2.1 =
      (seenSorted [⟨[7], some (.Goto 1)⟩, ⟨[8], some .Return⟩,
        ⟨[9], some (.Goto 0)⟩]).length ∧
    (∀ (j a : Nat),
      (seenSorted [⟨[7], some (.Goto 1)⟩, ⟨[8], some .Return⟩,
        ⟨[9], some (.Goto 0)⟩])[j]? = some a →
      ∃ b : BasicBlockData,
        ([⟨[7], some (.Goto 1)⟩, ⟨[8], some .Return⟩,
          ⟨[9], some (.Goto 0)⟩] : List BasicBlockData)[a]? = some b ∧
        (remove_dead_blocks [⟨[7], some (.Goto 1)⟩, ⟨[8], some .Return⟩,
          ⟨[9], some (.Goto 0)⟩])[j]? = some (rdbRewrite
          (compactGo (seenSorted [⟨[7], some (.Goto 1)⟩, ⟨[8], some .Return⟩,
              ⟨[9], some (.Goto 0)⟩])
            (List.range ([⟨[7], some (.Goto 1)⟩, ⟨[8], some .Return⟩,
              ⟨[9], some (.Goto 0)⟩] : List BasicBlockData).length) 0
            [⟨[7], some (.Goto 1)⟩, ⟨[8], some .Return⟩,
              ⟨[9], some (.Goto 0)⟩]).1 b)) ∧
    (∀ j, j < (remove_dead_blocks [⟨[7], some (.Goto 1)⟩, ⟨[8], some .Return⟩,
        ⟨[9], some (.Goto 0)⟩]).length →
      Relation.ReflTransGen
        (cfgEdge (remove_dead_blocks [⟨[7], some (.Goto 1)⟩, ⟨[8], some .Return⟩,
          ⟨[9], some (.Goto 0)⟩])) 0 j) :=
  claim_C5_remove_dead_blocks_reachable_contiguous_remapped
    [⟨[7], some (.Goto 1)⟩, ⟨[8], some .Return⟩, ⟨[9], some (.Goto 0)⟩]
    (by decide) (by decide) (by decide)

end SimplifyCfg

namespace ResolveImports

/-!
Embedding of `src/librustc_resolve/resolve_imports.rs`.

Modelling conventions:
* `Name` is a string, `NodeId` and spans are `Nat` labels, and a module
  handle (`Rc<Module>`) is a `ModuleId` index into `Resolver.modules`;
  handle equality models `Rc` pointer identity.
* The interior-mutable module fields become plain fields updated through
  the state; hash maps become association lists with deterministic order
  (`alGet`/`alSet`), which only fixes an iteration order the source leaves
  unspecified.
* `session` diagnostics are a grown-only list of `(code, span)` pairs; the
  message text is not modelled.
* External collaborators that live outside `src/` are modelled from the
  spec where they matter and marked as such: `resolve_module_path` (a
  finite oracle table), `populate_module_if_necessary` (the identity:
  children are taken as already populated), `ast_map.expect_item` (a span
  table), `report_unresolved_imports` (the unresolved-tree walker),
  `names_to_string`/`module_to_string` (string rendering) and the
  `ResolveResult`/`Module`/`NsDef` items of the resolver's `lib.rs`.
* A source panic (`unwrap`, `assert!`, `panic!`) is `none`; every fallible
  function returns `Option`, so a `some` result is a non-panicking run.
* `usize` counters use truncated `Nat` subtraction; the spec's invariant
  that module counters never go negative keeps the embedding exact.
-/

/-- Interned names. -/
abbrev Name := String

/-- `Namespace` of the resolver: the closed set of two namespaces. -/
inductive Namespace where
  | TypeNS
  | ValueNS
  deriving DecidableEq, Repr

/-- Whether an import can be shadowed by another import. -/
inductive Shadowable where
  | Always
  | Never
  deriving DecidableEq, Repr

/-- `ImportDirectiveSubclass`. -/
inductive ImportDirectiveSubclass where
  | SingleImport (target source : Name)
  | GlobImport
  deriving DecidableEq, Repr

/-- One import directive. -/
structure ImportDirective where
  module_path : List Name
  subclass : ImportDirectiveSubclass
  span : Nat
  id : Nat
  is_public : Bool
  shadowable : Shadowable
  deriving DecidableEq, Repr

/-- A definition id: owning crate plus node. -/
structure DefId where
  krate : Nat
  node : Nat
  deriving DecidableEq, Repr

/-- Definitions, abstracted: the pass only distinguishes module definitions
(`DefMod`, produced for glob targets and module-wrapping bindings) from the
rest, and extracts `def_id`. -/
inductive Def where
  | DefMod (did : DefId)
  | DefOther (did : DefId)
  deriving DecidableEq, Repr

def Def.def_id : Def → DefId
  | .DefMod d => d
  | .DefOther d => d

/-- A module handle; stands for `Rc<Module>` pointer identity. -/
abbrev ModuleId := Nat

/-- `DefModifiers` bit-flags, restricted to the two flags this file reads. -/
structure DefModifiers where
  importable : Bool
  public : Bool
  deriving DecidableEq, Repr

def DefModifiers.IMPORTABLE : DefModifiers := ⟨true, false⟩

def DefModifiers.PUBLIC : DefModifiers := ⟨false, true⟩

/-- Flag union (`|`). -/
def DefModifiers.union (a b : DefModifiers) : DefModifiers :=
  ⟨a.importable || b.importable, a.public || b.public⟩

/-- Flag containment (`contains`). -/
def DefModifiers.contains_ (a b : DefModifiers) : Bool :=
  (!b.importable || a.importable) && (!b.public || a.public)

/-- What a `NsDef` binds: a plain definition or a wrapped module. -/
inductive DefOrModule where
  | aDef (d : Def)
  | aModule (mid : ModuleId)
  deriving DecidableEq, Repr

/-- Modelled from the spec (§3.2): `NsDef`, a single namespace-qualified
binding (defined in the resolver's lib.rs, not under src/): a definition
handle or wrapped module, modifier flags and an optional span. -/
structure NsDef where
  modifiers : DefModifiers
  def_or_module : DefOrModule
  span : Option Nat
  deriving DecidableEq, Repr

def NsDef.is_public (d : NsDef) : Bool := d.modifiers.public

def NsDef.defined_with (d : NsDef) (m : DefModifiers) : Bool :=
  d.modifiers.contains_ m

def NsDef.module : NsDef → Option ModuleId
  | ⟨_, .aModule m, _⟩ => some m
  | _ => none

/-- Modelled from the spec: `NsDef::create_from_module` (lib.rs) wraps an
(importable, public) module binding. -/
def NsDef.create_from_module (mid : ModuleId) (span : Option Nat) : NsDef :=
  ⟨DefModifiers.IMPORTABLE.union DefModifiers.PUBLIC, .aModule mid, span⟩

/-- The item an import resolves to. -/
structure Target where
  target_module : ModuleId
  ns_def : NsDef
  shadowable : Shadowable
  deriving DecidableEq, Repr

def Target.new (target_module : ModuleId) (ns_def : NsDef) (shadowable : Shadowable) :
    Target := ⟨target_module, ns_def, shadowable⟩

/-- Per-`(name, namespace)` resolution slot of a module. -/
structure ImportResolution where
  outstanding_references : Nat
  is_public : Bool
  target : Option Target
  id : Nat
  deriving DecidableEq, Repr

def ImportResolution.new (id : Nat) (is_public : Bool) : ImportResolution :=
  { outstanding_references := 0, id := id, target := none, is_public := is_public }

def ImportResolution.shadowable (r : ImportResolution) : Shadowable :=
  match r.target with
  | some target => target.shadowable
  | none => .Always

/-- The three-valued resolution outcome (lib.rs; modelled from the spec
§7). -/
inductive ResolveResult (α : Type) where
  | Success (a : α)
  | Indeterminate
  | Failed (err : Option (Nat × String))
  deriving DecidableEq, Repr

def ResolveResult.success {α : Type} : ResolveResult α → Bool
  | .Success _ => true
  | _ => false

def ResolveResult.failed {α : Type} : ResolveResult α → Bool
  | .Failed _ => true
  | _ => false

/-- Modelled from the spec (§4.2.4): `ResolveResult::or` (lib.rs) keeps a
success and otherwise tries the alternative — the import search runs only
when the direct-child lookup found nothing. -/
def ResolveResult.or {α : Type} (r : ResolveResult α) (f : Unit → ResolveResult α) :
    ResolveResult α :=
  match r with
  | .Success a => .Success a
  | _ => f ()

/-- Privacy dependency of a resolved path. -/
inductive PrivateDep where
  | AllPublic
  | DependsOn (did : DefId)
  deriving DecidableEq, Repr

inductive ImportUse where
  | Used
  | Unused
  deriving DecidableEq, Repr

/-- Last-private tracking of a path resolution. -/
inductive LastPrivate where
  | LastMod (p : PrivateDep)
  | LastImport (value_priv : Option PrivateDep) (value_used : ImportUse)
      (type_priv : Option PrivateDep) (type_used : ImportUse)
  deriving DecidableEq, Repr

/-- An entry of the crate `DefMap`. -/
structure PathResolution where
  base_def : Def
  last_private : LastPrivate
  depth : Nat
  deriving DecidableEq, Repr

/-- Diagnostic codes this file can emit (notes are folded into `NoteDiag`,
and `UnresolvedImport` covers the generic unresolved-import report). -/
inductive DiagCode where
  | E0251
  | E0252
  | E0253
  | E0254
  | E0255
  | E0256
  | E0364
  | E0365
  | NoteDiag
  | UnresolvedImport
  deriving DecidableEq, Repr

/-- One emitted diagnostic: code and span (messages are not modelled). -/
structure Diag where
  code : DiagCode
  span : Nat
  deriving DecidableEq, Repr

/-- Modelled from the spec (§3.2): the module node (lib.rs), with the
interior-mutable cells flattened into plain fields. -/
structure Module where
  children : List ((Name × Namespace) × NsDef)
  anonymous_children : List ModuleId
  external_module_children : List (Name × ModuleId)
  imports : List ImportDirective
  import_resolutions : List ((Name × Namespace) × ImportResolution)
  glob_count : Nat
  pub_count : Nat
  pub_glob_count : Nat
  resolved_import_count : Nat
  def_id : Option DefId
  deriving DecidableEq, Repr

/-- `Module::all_imports_resolved` (lib.rs; spec §4.2.2). -/
def Module.all_imports_resolved (m : Module) : Bool :=
  m.imports.length = m.resolved_import_count

/-- A pending hard error collected during a pass. -/
structure ImportResolvingError where
  span : Nat
  path : String
  help : String
  deriving DecidableEq, Repr

/-- The resolver state threaded through every function: the module graph,
the global counters and maps of `Resolver`, the emitted diagnostics of
`session`, the `resolve_module_path` oracle table and the `ast_map` span
table. -/
structure Resolver where
  modules : List Module
  graph_root : ModuleId
  unresolved_imports : Nat
  current_module : ModuleId
  def_map : List (Nat × PathResolution)
  used_imports : List (Nat × Namespace)
  used_crates : List Nat
  import_uses : List (Nat × Name)
  diags : List Diag
  module_path_results : List ((ModuleId × List Name) × ResolveResult (ModuleId × LastPrivate))
  ast_items : List (Nat × Nat)
  deriving DecidableEq, Repr

/-- Association-list lookup (deterministic stand-in for `HashMap::get`). -/
def alGet {α β : Type} [DecidableEq α] : List (α × β) → α → Option β
  | [], _ => none
  | (k', v) :: rest, k => if k' = k then some v else alGet rest k

/-- Association-list update-or-insert (`HashMap::insert` / `get_mut` /
`entry().or_insert_with()` write-back). -/
def alSet {α β : Type} [DecidableEq α] : List (α × β) → α → β → List (α × β)
  | [], k, v => [(k, v)]
  | (k', v') :: rest, k, v =>
    if k' = k then (k, v) :: rest else (k', v') :: alSet rest k v

/-- The empty module, default of the (never wrong in the source) handle
dereference. -/
def emptyModule : Module :=
  { children := [], anonymous_children := [], external_module_children := [],
    imports := [], import_resolutions := [], glob_count := 0, pub_count := 0,
    pub_glob_count := 0, resolved_import_count := 0, def_id := none }

/-- Dereference a module handle. -/
def getModule (s : Resolver) (mid : ModuleId) : Module :=
  s.modules.getD mid emptyModule

/-- Write a module back through its handle. -/
def modifyModule (s : Resolver) (mid : ModuleId) (f : Module → Module) : Resolver :=
  { s with modules := s.modules.set mid (f (getModule s mid)) }

/-- Append diagnostics to the session (`span_err!` / `span_note`). -/
def addDiags (s : Resolver) (l : List Diag) : Resolver :=
  { s with diags := s.diags ++ l }

/-- Look up a direct child binding (`Module::get_child`, lib.rs). -/
def get_child (s : Resolver) (mid : ModuleId) (name : Name) (ns : Namespace) :
    Option NsDef :=
  alGet (getModule s mid).children (name, ns)

/-- `Def::def_id()` of a binding: direct for a plain definition, via the
wrapped module's `def_id` for a module binding (`NsDef::def`, lib.rs).
`none` is the `def().unwrap()` panic case. -/
def nsDefDef (s : Resolver) (d : NsDef) : Option Def :=
  match d.def_or_module with
  | .aDef d0 => some d0
  | .aModule mid => (getModule s mid).def_id.map Def.DefMod

/-- `ast_map.expect_item(id).span`: external AST table (a missing id would
be a panic in the source). -/
def expect_item_span (s : Resolver) (id : Nat) : Nat :=
  (alGet s.ast_items id).getD 0

/-- `ImportResolver::get_binding`. -/
def get_binding (s : Resolver) (import_resolution : ImportResolution)
    (namespace_ : Namespace) (source : Name) :
    ResolveResult (ModuleId × NsDef) × Resolver :=
  if !import_resolution.is_public then (.Failed none, s)
  else
    match import_resolution.target with
    | none => (.Failed none, s)
    | some t =>
      let id := import_resolution.id
      let s1 := { s with used_imports := (id, namespace_) :: s.used_imports,
                         import_uses := (id, source) :: s.import_uses }
      let s2 := match (getModule s1 t.target_module).def_id with
        | some did => { s1 with used_crates := did.krate :: s1.used_crates }
        | none => s1
      (.Success (t.target_module, t.ns_def), s2)

/-- `ImportResolver::resolve_name`: direct-child search plus the one-shot
private-reexport error (E0364 value / E0365 type, each with a note).
`populate_module_if_necessary` is the identity in this embedding. -/
def resolve_name (s : Resolver) (module : ModuleId) (name : Name) (ns : Namespace)
    (directive : ImportDirective) (pub_err : Bool) :
    ResolveResult (ModuleId × NsDef) × Resolver × Bool :=
  match get_child s module name ns with
  | some ns_def =>
    if !pub_err && directive.is_public && !ns_def.is_public then
      let code := match ns with
        | .ValueNS => DiagCode.E0364
        | .TypeNS => DiagCode.E0365
      let s1 := addDiags s [⟨code, directive.span⟩, ⟨.NoteDiag, directive.span⟩]
      (.Success (module, ns_def), s1, true)
    else (.Success (module, ns_def), s, pub_err)
  | none => (.Indeterminate, s, pub_err)

/-- `ImportResolver::resolve_in_imports`. -/
def resolve_in_imports (s : Resolver) (module : ModuleId) (name : Name)
    (ns : Namespace) (origin_module : ModuleId) (used : Bool) :
    ResolveResult (ModuleId × NsDef) × Resolver × Bool :=
  if (getModule s module).pub_glob_count > 0 then (.Indeterminate, s, used)
  else
    match alGet (getModule s module).import_resolutions (name, ns) with
    | none => (.Failed none, s, used)
    | some import_resolution =>
      if import_resolution.outstanding_references = 0 then
        let used1 := import_resolution.is_public
        let (r, s1) := get_binding s import_resolution ns name
        (r, s1, used1)
      else
        match (getModule s origin_module).def_id, (getModule s module).def_id with
        | some id1, some id2 =>
          if id1 = id2 then (.Failed none, s, used) else (.Indeterminate, s, used)
        | _, _ => (.Indeterminate, s, used)

/-- `ImportResolver::do_resolve`: direct children, then (via
`ResolveResult::or`) the exported imports, then — for the type namespace
only — the external crate children. -/
def do_resolve (s : Resolver) (module : ModuleId) (name : Name) (ns : Namespace)
    (origin_module : ModuleId) (directive : ImportDirective) (pub_err : Bool) :
    (ResolveResult (ModuleId × NsDef) × Bool) × Resolver × Bool :=
  let used_reexport := false
  let (r0, s1, pub_err1) := resolve_name s module name ns directive pub_err
  let (r1, s2, used1) :=
    match r0 with
    | .Success a => (ResolveResult.Success a, s1, used_reexport)
    | _ => resolve_in_imports s1 module name ns origin_module used_reexport
  match r1 with
  | .Indeterminate => ((.Indeterminate, used1), s2, pub_err1)
  | .Failed e =>
    match ns with
    | .TypeNS =>
      match alGet (getModule s2 module).external_module_children name with
      | none => ((.Failed e, used1), s2, pub_err1)
      | some result_module =>
        let s3 := match (getModule s2 result_module).def_id with
          | some did => { s2 with used_crates := did.krate :: s2.used_crates }
          | none => s2
        ((.Success (module, NsDef.create_from_module result_module none), used1),
          s3, pub_err1)
    | .ValueNS => ((.Failed e, used1), s2, pub_err1)
  | .Success a => ((.Success a, used1), s2, pub_err1)

/-- `ImportResolver::check_for_conflicting_import` (E0252 plus a note at the
previous import's item span). -/
def check_for_conflicting_import (s : Resolver) (import_resolution : ImportResolution)
    (import_span : Nat) (_name : Name) (_namespace : Namespace) : Resolver :=
  match import_resolution.target with
  | some target =>
    if target.shadowable ≠ Shadowable.Always then
      addDiags s [⟨.E0252, import_span⟩,
        ⟨.NoteDiag, expect_item_span s import_resolution.id⟩]
    else s
  | none => s

/-- `ImportResolver::check_that_import_is_importable` (E0253). -/
def check_that_import_is_importable (s : Resolver) (ns_def : NsDef)
    (import_span : Nat) (_name : Name) : Resolver :=
  if !(ns_def.defined_with DefModifiers.IMPORTABLE) then
    addDiags s [⟨.E0253, import_span⟩]
  else s

/-- First half of `check_for_conflicts_between_imports_and_items`: the
conflict with an `extern crate` (E0254, type namespace only). -/
def conflicts_extern_check (s : Resolver) (mid : ModuleId)
    (import_resolution : ImportResolution) (import_span : Nat)
    (name : Name) (ns : Namespace) : Resolver :=
  if ns = Namespace.TypeNS then
    if (alGet (getModule s mid).external_module_children name).isSome then
      match import_resolution.target with
      | some target =>
        if target.shadowable ≠ Shadowable.Always then
          addDiags s [⟨.E0254, import_span⟩]
        else s
      | none => s
    else s
  else s

/-- Second half of `check_for_conflicts_between_imports_and_items`: the
conflict with an item child (E0255 value / E0256 type, with notes). -/
def conflicts_item_check (s : Resolver) (mid : ModuleId)
    (import_resolution : ImportResolution) (import_span : Nat)
    (name : Name) (ns : Namespace) : Resolver :=
  match get_child s mid name ns with
  | none => s
  | some ns_def =>
    match ns with
    | .ValueNS =>
      match import_resolution.target with
      | some target =>
        if target.shadowable ≠ Shadowable.Always then
          let s2 := addDiags s [⟨.E0255, import_span⟩]
          match ns_def.span with
          | some sp => addDiags s2 [⟨.NoteDiag, sp⟩]
          | none => s2
        else s
      | none => s
    | .TypeNS =>
      match import_resolution.target with
      | some target =>
        if target.shadowable ≠ Shadowable.Always then
          let s2 := addDiags s [⟨.E0256, import_span⟩]
          match ns_def.span with
          | some sp => addDiags s2 [⟨.NoteDiag, sp⟩]
          | none => s2
        else s
      | none => s

/-- `ImportResolver::check_for_conflicts_between_imports_and_items`
(E0254 / E0255 / E0256 with notes). -/
def check_for_conflicts_between_imports_and_items (s : Resolver) (mid : ModuleId)
    (import_resolution : ImportResolution) (import_span : Nat)
    (name : Name) (ns : Namespace) : Resolver :=
  conflicts_item_check
    (conflicts_extern_check s mid import_resolution import_span name ns)
    mid import_resolution import_span name ns

/-- `ImportResolver::check_and_write_import`: conflict checks, then install
the freshly resolved target into the pre-seeded slot.  `none` models the
`unwrap` on a missing slot and the `panic!` on an indeterminate result. -/
def check_and_write_import (s : Resolver) (mid : ModuleId)
    (directive : ImportDirective) (target : Name) (ns : Namespace)
    (result : ResolveResult (ModuleId × NsDef)) : Option (Bool × Resolver) :=
  match alGet (getModule s mid).import_resolutions (target, ns) with
  | none => none
  | some import_resolution =>
    match result with
    | .Indeterminate => none
    | .Failed _ =>
      let s2 := check_for_conflicts_between_imports_and_items s mid
        import_resolution directive.span target ns
      some (false, s2)
    | .Success (target_module, ns_def) =>
      let s1 := check_for_conflicting_import s import_resolution directive.span
        target ns
      let s2 := check_that_import_is_importable s1 ns_def directive.span target
      let newres : ImportResolution :=
        { import_resolution with
            target := some (Target.new target_module ns_def directive.shadowable),
            id := directive.id,
            is_public := directive.is_public }
      let s3 := modifyModule s2 mid fun m =>
        { m with import_resolutions := alSet m.import_resolutions (target, ns) newres }
      let s4 := check_for_conflicts_between_imports_and_items s3 mid newres
        directive.span target ns
      some (ns_def.is_public, s4)

/-- `ImportResolver::record_import_resolution`: decrement the slot's
outstanding references (asserting it was ≥ 1) and update the crate `DefMap`.
`none` models the assert, the `def().unwrap()` and the
`panic!("Expected LastImport")`. -/
def record_import_resolution (s : Resolver) (mid : ModuleId)
    (directive : ImportDirective) (target : Name) (ns : Namespace)
    (used_public : Bool) (lp : PrivateDep) : Option Resolver :=
  match alGet (getModule s mid).import_resolutions (target, ns) with
  | none => none
  | some import_resolution =>
    if import_resolution.outstanding_references = 0 then none
    else
      let newres := { import_resolution with
        outstanding_references := import_resolution.outstanding_references - 1 }
      let s1 := modifyModule s mid fun m =>
        { m with import_resolutions := alSet m.import_resolutions (target, ns) newres }
      match newres.target with
      | none => some s1
      | some t =>
        match nsDefDef s1 t.ns_def with
        | none => none
        | some def0 =>
          let priv_dep := if used_public then lp else PrivateDep.DependsOn def0.def_id
          let resolution0 := (alGet s1.def_map directive.id).getD
            { base_def := def0,
              last_private := LastPrivate.LastImport none .Used none .Used,
              depth := 0 }
          let resolution1 :=
            if ns = Namespace.TypeNS then { resolution0 with base_def := def0 }
            else resolution0
          match resolution1.last_private with
          | .LastImport vp vu tp tu =>
            let lp' := match ns with
              | .ValueNS => LastPrivate.LastImport (some priv_dep) vu tp tu
              | .TypeNS => LastPrivate.LastImport vp vu (some priv_dep) tu
            let pr := { resolution1 with last_private := lp' }
            some { s1 with def_map := alSet s1.def_map directive.id pr }
          | .LastMod _ => none

/-- The write/record tail of `resolve_single_import` (after the both-failed
test): write and record both namespaces, recording `None` targets as well. -/
def resolve_single_import_write (s2 : Resolver) (module_ : ModuleId)
    (directive : ImportDirective) (target : Name)
    (value_result type_result : ResolveResult (ModuleId × NsDef))
    (value_used_reexport type_used_reexport : Bool) (lp : PrivateDep) :
    Option (ResolveResult Unit × Resolver) :=
  match check_and_write_import s2 module_ directive target .ValueNS
      value_result with
  | none => none
  | some (value_used_public0, s3) =>
    let value_used_public := value_used_reexport || value_used_public0
    match record_import_resolution s3 module_ directive target .ValueNS
        value_used_public lp with
    | none => none
    | some s4 =>
      match check_and_write_import s4 module_ directive target .TypeNS
          type_result with
      | none => none
      | some (type_used_public0, s5) =>
        let type_used_public := type_used_reexport || type_used_public0
        match record_import_resolution s5 module_ directive target .TypeNS
            type_used_public lp with
        | none => none
        | some s6 => some (.Success (), s6)

/-- `ImportResolver::resolve_single_import`: resolve the source name in both
namespaces; indeterminacy in either aborts the attempt, joint failure is the
only fatal outcome, and otherwise both namespaces are written and recorded.
The failure message's module rendering (`module_to_string`) is not
modelled. -/
def resolve_single_import (s : Resolver) (module_ : ModuleId)
    (target_module : ModuleId) (target : Name) (source : Name)
    (directive : ImportDirective) (lp : LastPrivate) :
    Option (ResolveResult Unit × Resolver) :=
  match lp with
  | .LastImport _ _ _ _ => none
  | .LastMod lp =>
    let pub_err := false
    let ((value_result, value_used_reexport), s1, pub_err1) :=
      do_resolve s target_module source .ValueNS module_ directive pub_err
    match value_result with
    | .Indeterminate => some (.Indeterminate, s1)
    | _ =>
      let ((type_result, type_used_reexport), s2, _pub_err2) :=
        do_resolve s1 target_module source .TypeNS module_ directive pub_err1
      match type_result with
      | .Indeterminate => some (.Indeterminate, s2)
      | _ =>
        if value_result.failed && type_result.failed then
          some (.Failed (some (directive.span,
            "There is no `" ++ source ++ "` in the target module")), s2)
        else
          resolve_single_import_write s2 module_ directive target
            value_result type_result value_used_reexport type_used_reexport lp

/-- `ImportResolver::merge_import_resolution`: merge one glob-provided child
binding into the destination slot (creating the slot on demand), emitting
E0251 instead of installing when the slot is non-shadowable. -/
def merge_import_resolution (s : Resolver) (module_ : ModuleId)
    (containing_module : ModuleId) (import_directive : ImportDirective)
    (name : Name) (namespace_ : Namespace) (ns_def : NsDef) : Resolver :=
  let id := import_directive.id
  let is_public := import_directive.is_public
  let (dest_import_resolution, s0) :=
    match alGet (getModule s module_).import_resolutions (name, namespace_) with
    | some r => (r, s)
    | none =>
      let r := ImportResolution.new id is_public
      (r, modifyModule s module_ fun m =>
        { m with import_resolutions := alSet m.import_resolutions (name, namespace_) r })
  if ns_def.defined_with (DefModifiers.IMPORTABLE.union DefModifiers.PUBLIC) then
    if dest_import_resolution.shadowable = Shadowable.Never then
      let s1 := addDiags s0 [⟨.E0251, import_directive.span⟩]
      check_for_conflicts_between_imports_and_items s1 module_
        dest_import_resolution import_directive.span name namespace_
    else
      let newres := { dest_import_resolution with
        target := some (Target.new containing_module ns_def import_directive.shadowable),
        id := id, is_public := is_public }
      let s1 := modifyModule s0 module_ fun m =>
        { m with import_resolutions := alSet m.import_resolutions (name, namespace_) newres }
      check_for_conflicts_between_imports_and_items s1 module_ newres
        import_directive.span name namespace_
  else
    check_for_conflicts_between_imports_and_items s0 module_
      dest_import_resolution import_directive.span name namespace_

/-- One step of `resolve_glob_import`'s first loop: copy an exported import
resolution of the source module into the destination. -/
def glob_copy_step (module_ : ModuleId) (import_directive : ImportDirective)
    (st : Resolver) (entry : (Name × Namespace) × ImportResolution) : Resolver :=
  let name := entry.1.1
  let ns := entry.1.2
  let target_import_resolution := entry.2
  match alGet (getModule st module_).import_resolutions (name, ns) with
  | some dest_import_resolution =>
    if !target_import_resolution.is_public then st
    else
      match target_import_resolution.target with
      | some t =>
        let st1 := check_for_conflicting_import st dest_import_resolution
          import_directive.span name ns
        let upd := { dest_import_resolution with
          target := some t, is_public := import_directive.is_public }
        modifyModule st1 module_ fun m =>
          { m with import_resolutions := alSet m.import_resolutions (name, ns) upd }
      | none => st
  | none =>
    if !target_import_resolution.is_public then st
    else
      let new_import_resolution :=
        { ImportResolution.new import_directive.id import_directive.is_public with
          target := target_import_resolution.target }
      modifyModule st module_ fun m =>
        { m with import_resolutions := (alSet m.import_resolutions (name, ns)
            new_import_resolution) }

/-- One step of `resolve_glob_import`'s second loop: merge a child item of
the source module into the destination. -/
def glob_merge_child_step (module_ : ModuleId) (target_module : ModuleId)
    (import_directive : ImportDirective) (st : Resolver)
    (entry : (Name × Namespace) × NsDef) : Resolver :=
  merge_import_resolution st module_ target_module import_directive
    entry.1.1 entry.1.2 entry.2

/-- One step of `resolve_glob_import`'s third loop: merge an external crate
child of the source module into the destination (type namespace). -/
def glob_merge_extern_step (module_ : ModuleId) (target_module : ModuleId)
    (import_directive : ImportDirective) (st : Resolver)
    (entry : Name × ModuleId) : Resolver :=
  merge_import_resolution st module_ target_module import_directive
    entry.1 Namespace.TypeNS (NsDef.create_from_module entry.2 none)

/-- `ImportResolver::resolve_glob_import`.  The `borrow_state() != Unused`
self-glob detection fires exactly when the destination is the module whose
resolutions are already borrowed for iteration, i.e. when the two handles
are the same `Rc`; it is modelled as handle equality. -/
def resolve_glob_import (s : Resolver) (module_ : ModuleId)
    (target_module : ModuleId) (import_directive : ImportDirective)
    (lp : LastPrivate) : ResolveResult Unit × Resolver :=
  if (getModule s target_module).pub_count > 0 then (.Indeterminate, s)
  else if target_module = module_ then
    (.Failed (some (import_directive.span,
      "Cannot glob-import a module into itself.")), s)
  else
    let snapshot := (getModule s target_module).import_resolutions
    let s1 := snapshot.foldl (glob_copy_step module_ import_directive) s
    let s2 := (getModule s1 target_module).children.foldl
      (glob_merge_child_step module_ target_module import_directive) s1
    let s3 := (getModule s2 target_module).external_module_children.foldl
      (glob_merge_extern_step module_ target_module import_directive) s2
    let s4 := match (getModule s3 target_module).def_id with
      | some did =>
        { s3 with def_map := (alSet s3.def_map import_directive.id
            { base_def := Def.DefMod did, last_private := lp, depth := 0 }) }
      | none => s3
    (.Success (), s4)

/-- Modelled from the spec (§6): `Resolver::resolve_module_path`, an
external hook, as a finite oracle table (absent entries fail). -/
def resolve_module_path (s : Resolver) (mid : ModuleId) (path : List Name) :
    ResolveResult (ModuleId × LastPrivate) :=
  (alGet s.module_path_results (mid, path)).getD (.Failed none)

/-- The tail of `ImportResolver::resolve_import_for_module`: on success,
decrement `unresolved_imports` (assert ≥ 1) and the module's glob/pub
counters. -/
def importAccounting (s : Resolver) (module_ : ModuleId)
    (import_directive : ImportDirective) (rr : ResolveResult Unit) :
    Option (ResolveResult Unit × Resolver) :=
  match rr with
  | .Success _ =>
    if s.unresolved_imports = 0 then none
    else
      let s1 := { s with unresolved_imports := s.unresolved_imports - 1 }
      let s2 := modifyModule s1 module_ fun m =>
        let m1 := match import_directive.subclass with
          | .GlobImport =>
            let m' := { m with glob_count := m.glob_count - 1 }
            if import_directive.is_public then
              { m' with pub_glob_count := m'.pub_glob_count - 1 }
            else m'
          | .SingleImport _ _ => m
        if import_directive.is_public then { m1 with pub_count := m1.pub_count - 1 }
        else m1
      some (rr, s2)
  | _ => some (rr, s)

/-- `ImportResolver::resolve_import_for_module`: resolve the directive's
module path (crate root for an empty path), dispatch on the subclass, then
account for a success. -/
def resolve_import_for_module (s : Resolver) (module_ : ModuleId)
    (import_directive : ImportDirective) : Option (ResolveResult Unit × Resolver) :=
  let module_path := import_directive.module_path
  let container :=
    if module_path.isEmpty then
      ResolveResult.Success (s.graph_root, LastPrivate.LastMod PrivateDep.AllPublic)
    else resolve_module_path s module_ module_path
  match container with
  | .Failed err => importAccounting s module_ import_directive (.Failed err)
  | .Indeterminate => importAccounting s module_ import_directive .Indeterminate
  | .Success (containing_module, lp) =>
    match import_directive.subclass with
    | .SingleImport target source =>
      match resolve_single_import s module_ containing_module target source
          import_directive lp with
      | none => none
      | some (rr, s1) => importAccounting s1 module_ import_directive rr
    | .GlobImport =>
      let (rr, s1) := resolve_glob_import s module_ containing_module
        import_directive lp
      importAccounting s1 module_ import_directive rr

/-- Modelled from the source helpers at the bottom of the file;
`names_to_string` (lib.rs) renders a `::`-separated path. -/
def names_to_string (names : List Name) : String :=
  String.intercalate "::" names

def import_directive_subclass_to_string : ImportDirectiveSubclass → String
  | .SingleImport _ source => source
  | .GlobImport => "*"

def import_path_to_string (names : List Name)
    (subclass : ImportDirectiveSubclass) : String :=
  if names.isEmpty then import_directive_subclass_to_string subclass
  else names_to_string names ++ "::" ++ import_directive_subclass_to_string subclass

/-- `Vec::swap_remove(i)`: move the last element into slot `i` and pop. -/
def swapRemove {α : Type} (l : List α) (i : Nat) : List α :=
  if i < l.length then
    match l.getLast? with
    | some last => (l.set i last).dropLast
    | none => l
  else l

/-- The `while` loop of `ImportResolver::resolve_imports_for_module`: keep
taking the directive at index `resolved_import_count` until every directive
is resolved or parked as indeterminate; failures are recorded and parked
too.  `import_count` is captured before the loop, as in the source. -/
def resolveImportsForModuleLoop (module_ : ModuleId) (import_count : Nat) :
    Nat → Resolver → List ImportDirective → List ImportResolvingError →
    Option (List ImportResolvingError × Resolver)
  | 0, _, _, _ => none
  | fuel + 1, s, indeterminate_imports, errors =>
    if (getModule s module_).resolved_import_count + indeterminate_imports.length <
        import_count then
      let import_index := (getModule s module_).resolved_import_count
      match (getModule s module_).imports[import_index]? with
      | none => none
      | some import_directive =>
        match resolve_import_for_module s module_ import_directive with
        | none => none
        | some (rr, s1) =>
          match rr with
          | .Success _ =>
            let s2 := modifyModule s1 module_ fun m =>
              { m with resolved_import_count := m.resolved_import_count + 1 }
            resolveImportsForModuleLoop module_ import_count fuel s2
              indeterminate_imports errors
          | .Indeterminate =>
            let s2 := modifyModule s1 module_ fun m =>
              { m with imports := swapRemove m.imports import_index }
            resolveImportsForModuleLoop module_ import_count fuel s2
              (indeterminate_imports ++ [import_directive]) errors
          | .Failed err =>
            let newErr : ImportResolvingError := match err with
              | some (span, msg) =>
                ⟨span, import_path_to_string import_directive.module_path
                  import_directive.subclass, ". " ++ msg⟩
              | none =>
                ⟨import_directive.span, import_path_to_string
                  import_directive.module_path import_directive.subclass, ""⟩
            let s2 := modifyModule s1 module_ fun m =>
              { m with imports := swapRemove m.imports import_index }
            resolveImportsForModuleLoop module_ import_count fuel s2
              (indeterminate_imports ++ [import_directive]) (errors ++ [newErr])
    else
      some (errors, modifyModule s module_ fun m =>
        { m with imports := m.imports ++ indeterminate_imports })

/-- `ImportResolver::resolve_imports_for_module`. -/
def resolve_imports_for_module (s : Resolver) (module_ : ModuleId) :
    Option (List ImportResolvingError × Resolver) :=
  if (getModule s module_).all_imports_resolved then some ([], s)
  else
    let import_count := (getModule s module_).imports.length
    resolveImportsForModuleLoop module_ import_count (import_count + 1) s [] []

/-- The error/state accumulator of the subtree walk: fold one child through
the recursive resolver `F`, threading the collected errors. -/
def subtreeStep (F : ModuleId → Resolver → Option (List ImportResolvingError × Resolver))
    (acc : Option (List ImportResolvingError × Resolver)) (cmid : ModuleId) :
    Option (List ImportResolvingError × Resolver) :=
  match acc with
  | none => none
  | some (errs, st) =>
    match F cmid st with
    | none => none
    | some (errs2, st2) => some (errs ++ errs2, st2)

/-- `ImportResolver::resolve_imports_for_module_subtree`: the module itself,
then its submodule children, then its anonymous children.  The fuel bounds
the tree depth (`modules.length + 1` always suffices for a module tree). -/
def resolve_imports_for_module_subtree (module_ : ModuleId) :
    Nat → Resolver → Option (List ImportResolvingError × Resolver)
  | 0, _ => none
  | fuel + 1, s =>
    let orig_module := s.current_module
    let s0 := { s with current_module := module_ }
    match resolve_imports_for_module s0 module_ with
    | none => none
    | some (errors, s1) =>
      let s2 := { s1 with current_module := orig_module }
      let step := subtreeStep
        (fun cmid st => resolve_imports_for_module_subtree cmid fuel st)
      let childModules := (getModule s2 module_).children.filterMap
        (fun e => e.2.module)
      match childModules.foldl step (some (errors, s2)) with
      | none => none
      | some (errs3, s3) =>
        (getModule s3 module_).anonymous_children.foldl step (some (errs3, s3))

/-- Modelled from the spec (§4.2.1): `Resolver::report_unresolved_imports`
(lib.rs, not under src/) walks the module tree and emits one "unresolved
import" diagnostic per still-pending directive. -/
def report_unresolved_imports (module_ : ModuleId) :
    Nat → Resolver → Resolver
  | 0, s => s
  | fuel + 1, s =>
    let m := getModule s module_
    let pending := m.imports.drop m.resolved_import_count
    let s1 := addDiags s (pending.map (fun d => ⟨.UnresolvedImport, d.span⟩))
    let s2 := ((getModule s1 module_).children.filterMap (fun e => e.2.module)).foldl
      (fun st cmid => report_unresolved_imports cmid fuel st) s1
    (getModule s2 module_).anonymous_children.foldl
      (fun st cmid => report_unresolved_imports cmid fuel st) s2

/-- One diagnostic per collected hard error
(`resolve_error(.., UnresolvedImport ..)`). -/
def flushErrors (s : Resolver) (errors : List ImportResolvingError) : Resolver :=
  addDiags s (errors.map (fun e => ⟨.UnresolvedImport, e.span⟩))

/-- The outer fixed-point loop of `ImportResolver::resolve_imports`: run a
pass over the tree; stop at zero unresolved imports, stop (flushing hard
errors, else reporting the unresolved tree) when a pass made no progress,
and otherwise iterate with the new count as `prev`. -/
def resolveImportsLoop : Nat → Resolver → Nat → Option Resolver
  | 0, _, _ => none
  | fuel + 1, s, prev_unresolved_imports =>
    match resolve_imports_for_module_subtree s.graph_root (s.modules.length + 1) s with
    | none => none
    | some (errors, s1) =>
      if s1.unresolved_imports = 0 then some s1
      else if s1.unresolved_imports = prev_unresolved_imports then
        if 0 < errors.length then some (flushErrors s1 errors)
        else some (report_unresolved_imports s1.graph_root (s1.modules.length + 1) s1)
      else resolveImportsLoop fuel s1 s1.unresolved_imports
  termination_by fuel => fuel

/-- `resolve_imports`: the fuel always suffices because, past the first
pass, every continuing iteration strictly decreases `unresolved_imports`. -/
def resolve_imports (s : Resolver) : Option Resolver :=
  resolveImportsLoop (s.unresolved_imports + 2) s 0

/-! ### Association-list and state lemmas -/

theorem alGet_alSet_self {α β : Type} [DecidableEq α] (l : List (α × β)) (k : α) (v : β) :
    alGet (alSet l k v) k = some v := by
  induction l with
  | nil => simp [alGet, alSet]
  | cons p rest ih =>
    by_cases h : p.1 = k
    · simp [alGet, alSet, h]
    · simp [alGet, alSet, h, ih]

theorem alGet_alSet_ne {α β : Type} [DecidableEq α] (l : List (α × β)) (k : α) (v : β)
    (k' : α) (h : k' ≠ k) : alGet (alSet l k v) k' = alGet l k' := by
  have h1 : ¬(k = k') := fun hh => h hh.symm
  induction l with
  | nil => simp [alGet, alSet, h1]
  | cons p rest ih =>
    by_cases hp : p.1 = k
    · have h2 : ¬(p.1 = k') := fun hh => h1 (hp.symm.trans hh)
      simp [alGet, alSet, hp, h1, h2]
    · by_cases hp' : p.1 = k'
      · simp [alGet, alSet, hp, hp', h]
      · simp [alGet, alSet, hp, hp', ih]

theorem getD_set_self' {α : Type} (l : List α) (i : Nat) (a d : α) (h : i < l.length) :
    (l.set i a).getD i d = a := by
  rw [List.getD_eq_getElem?_getD, List.getElem?_set_eq_of_lt _ h]
  rfl

theorem getD_set_other' {α : Type} (l : List α) (i : Nat) (a d : α) (v : Nat)
    (h : v ≠ i) : (l.set i a).getD v d = l.getD v d := by
  rw [List.getD_eq_getElem?_getD, List.getElem?_set_ne (fun hh => h hh.symm),
    ← List.getD_eq_getElem?_getD]

theorem getModule_modifyModule_self (s : Resolver) (mid : ModuleId)
    (f : Module → Module) (h : mid < s.modules.length) :
    getModule (modifyModule s mid f) mid = f (getModule s mid) := by
  unfold getModule modifyModule
  exact getD_set_self' _ _ _ _ h

theorem getModule_modifyModule_other (s : Resolver) (mid : ModuleId)
    (f : Module → Module) (mid' : ModuleId) (h : mid' ≠ mid) :
    getModule (modifyModule s mid f) mid' = getModule s mid' := by
  unfold getModule modifyModule
  exact getD_set_other' _ _ _ _ _ h

theorem getModule_addDiags (s : Resolver) (l : List Diag) (mid : ModuleId) :
    getModule (addDiags s l) mid = getModule s mid := rfl

theorem addDiags_addDiags (s : Resolver) (l1 l2 : List Diag) :
    addDiags (addDiags s l1) l2 = addDiags s (l1 ++ l2) := by
  unfold addDiags
  simp

/-- C7: a glob import whose source module is the destination module (with no
pending public imports in the source) fails with exactly the self-glob
message and returns the state untouched: destination resolutions, all module
counters, `unresolved_imports` and the `DefMap` are unchanged because the
function returns before any mutation. -/
theorem claim_C7_self_glob_fails_state_unchanged
    (s : Resolver) (mid : ModuleId) (d : ImportDirective) (lp : LastPrivate)
    (hpub : (getModule s mid).pub_count = 0) :
    resolve_glob_import s mid mid d lp =
      (.Failed (some (d.span, "Cannot glob-import a module into itself.")), s) := by
  unfold resolve_glob_import
  rw [hpub]
  simp

/-- Fixture module for the C7 witness. -/
def selfGlobModule : Module :=
  { children := [], anonymous_children := [], external_module_children := [],
    imports := [], import_resolutions := [], glob_count := 1, pub_count := 0,
    pub_glob_count := 0, resolved_import_count := 0, def_id := some ⟨0, 0⟩ }

/-- Fixture resolver state for the C7 witness. -/
def selfGlobState : Resolver :=
  { modules := [selfGlobModule], graph_root := 0, unresolved_imports := 1,
    current_module := 0, def_map := [], used_imports := [], used_crates := [],
    import_uses := [], diags := [], module_path_results := [], ast_items := [] }

/-- Witness for C7: a one-module resolver glob-importing the root into
itself. -/
theorem claim_C7_witness :
    resolve_glob_import selfGlobState 0 0 ⟨[], .GlobImport, 5, 9, false, .Always⟩
      (.LastMod .AllPublic) =
      (.Failed (some (5, "Cannot glob-import a module into itself.")),
        selfGlobState) :=
  claim_C7_self_glob_fails_state_unchanged selfGlobState 0
    ⟨[], .GlobImport, 5, 9, false, .Always⟩ (.LastMod .AllPublic) (by decide)

/-- `DiagsOnly s s'`: the state `s'` is `s` with some extra diagnostics
appended, none of which is E0251. -/
def DiagsOnly (s s' : Resolver) : Prop :=
  ∃ extra : List Diag, s' = addDiags s extra ∧
    ∀ dg ∈ extra, dg.code ≠ DiagCode.E0251

theorem diagsOnly_refl (s : Resolver) : DiagsOnly s s :=
  ⟨[], by unfold addDiags; simp, by simp⟩

theorem diagsOnly_trans {s s1 s2 : Resolver} (h1 : DiagsOnly s s1)
    (h2 : DiagsOnly s1 s2) : DiagsOnly s s2 := by
  obtain ⟨e1, rfl, hp1⟩ := h1
  obtain ⟨e2, rfl, hp2⟩ := h2
  refine ⟨e1 ++ e2, by rw [addDiags_addDiags], ?_⟩
  intro dg hdg
  rcases List.mem_append.mp hdg with h | h
  · exact hp1 dg h
  · exact hp2 dg h

theorem diagsOnly_add (s : Resolver) (l : List Diag)
    (h : ∀ dg ∈ l, dg.code ≠ DiagCode.E0251) : DiagsOnly s (addDiags s l) :=
  ⟨l, rfl, h⟩

/-- `check_for_conflicting_import` only appends diagnostics, and never an
E0251. -/
theorem check_for_conflicting_import_diags (s : Resolver)
    (ir : ImportResolution) (sp : Nat) (name : Name) (ns : Namespace) :
    DiagsOnly s (check_for_conflicting_import s ir sp name ns) := by
  unfold check_for_conflicting_import
  split
  · split
    · refine diagsOnly_add _ _ ?_
      intro dg hdg
      simp only [List.mem_cons, List.not_mem_nil, or_false] at hdg
      rcases hdg with rfl | rfl <;> simp
    · exact diagsOnly_refl s
  · exact diagsOnly_refl s

/-- `check_that_import_is_importable` only appends diagnostics, and never an
E0251. -/
theorem check_that_import_is_importable_diags (s : Resolver) (nd : NsDef)
    (sp : Nat) (name : Name) :
    DiagsOnly s (check_that_import_is_importable s nd sp name) := by
  unfold check_that_import_is_importable
  split
  · refine diagsOnly_add _ _ ?_
    intro dg hdg
    simp only [List.mem_cons, List.not_mem_nil, or_false] at hdg
    rcases hdg with rfl
    simp
  · exact diagsOnly_refl s

/-- The extern-crate half of the between-imports-and-items check only
appends diagnostics, never an E0251. -/
theorem conflicts_extern_check_diags (s : Resolver) (mid : ModuleId)
    (ir : ImportResolution) (sp : Nat) (name : Name) (ns : Namespace) :
    DiagsOnly s (conflicts_extern_check s mid ir sp name ns) := by
  unfold conflicts_extern_check
  split
  · split
    · split
      · split
        · refine diagsOnly_add _ _ ?_
          intro dg hdg
          simp only [List.mem_cons, List.not_mem_nil, or_false] at hdg
          rcases hdg with rfl
          simp
        · exact diagsOnly_refl s
      · exact diagsOnly_refl s
    · exact diagsOnly_refl s
  · exact diagsOnly_refl s

/-- The item half of the between-imports-and-items check only appends
diagnostics, never an E0251. -/
theorem conflicts_item_check_diags (s : Resolver) (mid : ModuleId)
    (ir : ImportResolution) (sp : Nat) (name : Name) (ns : Namespace) :
    DiagsOnly s (conflicts_item_check s mid ir sp name ns) := by
  unfold conflicts_item_check
  split
  · exact diagsOnly_refl s
  · split
    · split
      · split
        · dsimp only
          split
          · refine diagsOnly_trans (diagsOnly_add s _ ?_) (diagsOnly_add _ _ ?_)
            · intro dg hdg
              simp only [List.mem_cons, List.not_mem_nil, or_false] at hdg
              rcases hdg with rfl
              simp
            · intro dg hdg
              simp only [List.mem_cons, List.not_mem_nil, or_false] at hdg
              rcases hdg with rfl
              simp
          · refine diagsOnly_add _ _ ?_
            intro dg hdg
            simp only [List.mem_cons, List.not_mem_nil, or_false] at hdg
            rcases hdg with rfl
            simp
        · exact diagsOnly_refl s
      · exact diagsOnly_refl s
    · split
      · split
        · dsimp only
          split
          · refine diagsOnly_trans (diagsOnly_add s _ ?_) (diagsOnly_add _ _ ?_)
            · intro dg hdg
              simp only [List.mem_cons, List.not_mem_nil, or_false] at hdg
              rcases hdg with rfl
              simp
            · intro dg hdg
              simp only [List.mem_cons, List.not_mem_nil, or_false] at hdg
              rcases hdg with rfl
              simp
          · refine diagsOnly_add _ _ ?_
            intro dg hdg
            simp only [List.mem_cons, List.not_mem_nil, or_false] at hdg
            rcases hdg with rfl
            simp
        · exact diagsOnly_refl s
      · exact diagsOnly_refl s

/-- `check_for_conflicts_between_imports_and_items` only appends
diagnostics, never an E0251. -/
theorem conflicts_check_diags (s : Resolver) (mid : ModuleId)
    (ir : ImportResolution) (sp : Nat) (name : Name) (ns : Namespace) :
    DiagsOnly s (check_for_conflicts_between_imports_and_items s mid ir sp name ns) :=
  diagsOnly_trans (conflicts_extern_check_diags s mid ir sp name ns)
    (conflicts_item_check_diags _ mid ir sp name ns)

/-- The slot value a successful glob merge installs: the old slot with
target, id and is_public overwritten from the incoming binding and
directive. -/
def installedSlot (res : ImportResolution) (containing_module : ModuleId)
    (nd : NsDef) (d : ImportDirective) : ImportResolution :=
  { res with target := some (Target.new containing_module nd d.shadowable),
             id := d.id, is_public := d.is_public }

/-- C8: in a glob merge step whose destination slot exists with `target =
None`, `ImportResolution::shadowable` returns `Always`, so an incoming
public importable binding is installed into the slot (target, id and
is_public all overwritten from the directive) and the only diagnostics the
step can add are conflict checks other than E0251 — regardless of the
shadowable flag of the directive that originally created the slot, which
the slot no longer stores. -/
theorem claim_C8_none_target_slot_installs_without_E0251
    (s : Resolver) (module_ containing_module : ModuleId)
    (d : ImportDirective) (name : Name) (ns : Namespace)
    (res : ImportResolution) (nd : NsDef)
    (hmid : module_ < s.modules.length)
    (hslot : alGet (getModule s module_).import_resolutions (name, ns) = some res)
    (htgt : res.target = none)
    (hdef : nd.defined_with (DefModifiers.IMPORTABLE.union DefModifiers.PUBLIC) = true) :
    res.shadowable = Shadowable.Always ∧
    DiagsOnly
      (modifyModule s module_ fun m =>
        { m with import_resolutions :=
            alSet m.import_resolutions (name, ns) (installedSlot res containing_module nd d) })
      (merge_import_resolution s module_ containing_module d name ns nd) ∧
    alGet (getModule
        (merge_import_resolution s module_ containing_module d name ns nd)
        module_).import_resolutions (name, ns) =
      some (installedSlot res containing_module nd d) := by
  have hsh : res.shadowable = Shadowable.Always := by
    unfold ImportResolution.shadowable
    rw [htgt]
  have hmerge : merge_import_resolution s module_ containing_module d name ns nd =
      check_for_conflicts_between_imports_and_items
        (modifyModule s module_ fun m =>
          { m with import_resolutions :=
              alSet m.import_resolutions (name, ns) (installedSlot res containing_module nd d) })
        module_ (installedSlot res containing_module nd d)
        d.span name ns := by
    unfold merge_import_resolution
    rw [hslot]
    simp only [hdef, hsh, if_true]
    rfl
  refine ⟨hsh, ?_, ?_⟩
  · rw [hmerge]
    exact conflicts_check_diags _ module_ _ d.span name ns
  · rw [hmerge]
    obtain ⟨extra, heq, -⟩ := conflicts_check_diags
      (modifyModule s module_ fun m =>
        { m with import_resolutions :=
            alSet m.import_resolutions (name, ns) (installedSlot res containing_module nd d) })
      module_ (installedSlot res containing_module nd d)
      d.span name ns
    rw [heq, getModule_addDiags, getModule_modifyModule_self _ _ _ hmid]
    exact alGet_alSet_self _ _ _

/-- Fixture module for the C8 witness: one pre-seeded slot for `x` in the
value namespace whose target is `None`. -/
def mergeSlotModule : Module :=
  { children := [], anonymous_children := [], external_module_children := [],
    imports := [], import_resolutions :=
      [(("x", Namespace.ValueNS), ⟨1, false, none, 7⟩)],
    glob_count := 1, pub_count := 0, pub_glob_count := 0,
    resolved_import_count := 0, def_id := some ⟨0, 0⟩ }

/-- Fixture resolver state for the C8 witness. -/
def mergeSlotState : Resolver :=
  { modules := [mergeSlotModule], graph_root := 0, unresolved_imports := 1,
    current_module := 0, def_map := [], used_imports := [], used_crates := [],
    import_uses := [], diags := [], module_path_results := [], ast_items := [] }

/-- The public importable binding merged in by the C8 witness. -/
def mergeSlotNsDef : NsDef :=
  ⟨DefModifiers.IMPORTABLE.union DefModifiers.PUBLIC,
    .aDef (.DefOther ⟨0, 3⟩), some 11⟩

/-- Witness for C8: a slot created by a `Never`-shadowable directive but with
`target = None` accepts the glob-provided binding with no E0251. -/
theorem claim_C8_witness :
    (⟨1, false, none, 7⟩ : ImportResolution).shadowable = Shadowable.Always ∧
    DiagsOnly
      (modifyModule mergeSlotState 0 fun m =>
        { m with import_resolutions :=
            (alSet m.import_resolutions ("x", .ValueNS)
              (installedSlot ⟨1, false, none, 7⟩ 0 mergeSlotNsDef
                ⟨[], .GlobImport, 5, 9, true, .Never⟩)) })
      (merge_import_resolution mergeSlotState 0 0
        ⟨[], .GlobImport, 5, 9, true, .Never⟩ "x" .ValueNS mergeSlotNsDef) ∧
    alGet (getModule
        (merge_import_resolution mergeSlotState 0 0
          ⟨[], .GlobImport, 5, 9, true, .Never⟩ "x" .ValueNS mergeSlotNsDef)
        0).import_resolutions ("x", .ValueNS) =
      some (installedSlot ⟨1, false, none, 7⟩ 0 mergeSlotNsDef
        ⟨[], .GlobImport, 5, 9, true, .Never⟩) :=
  claim_C8_none_target_slot_installs_without_E0251 mergeSlotState 0 0
    ⟨[], .GlobImport, 5, 9, true, .Never⟩ "x" .ValueNS ⟨1, false, none, 7⟩
    mergeSlotNsDef (by decide) (by decide) (by decide) (by decide)

/-- Dereferencing modules only depends on the module table. -/
theorem getModule_eq_of_modules_eq {s' s : Resolver} (h : s'.modules = s.modules)
    (mid : ModuleId) : getModule s' mid = getModule s mid := by
  unfold getModule
  rw [h]

/-- A diagnostics-only extension leaves the module table and the `DefMap`
untouched. -/
theorem diagsOnly_fields {s s' : Resolver} (h : DiagsOnly s s') :
    s'.modules = s.modules ∧ s'.def_map = s.def_map := by
  obtain ⟨e, rfl, -⟩ := h
  exact ⟨rfl, rfl⟩

/-- A binding wrapping a plain definition resolves to it in any state. -/
theorem nsDefDef_aDef (s : Resolver) (nd : NsDef) (d0 : Def)
    (h : nd.def_or_module = DefOrModule.aDef d0) : nsDefDef s nd = some d0 := by
  unfold nsDefDef
  rw [h]

theorem def_map_modifyModule (s : Resolver) (mid : ModuleId) (f : Module → Module) :
    (modifyModule s mid f).def_map = s.def_map := rfl

/-- A slot with its outstanding-reference counter decremented. -/
def decrSlot (res : ImportResolution) : ImportResolution :=
  { res with outstanding_references := res.outstanding_references - 1 }

/-- The state `check_and_write_import` produces on a successful resolution
found in the pre-seeded slot `res`: conflict checks around installing the
new target. -/
def cwState (s : Resolver) (mid : ModuleId) (d : ImportDirective) (target : Name)
    (ns : Namespace) (tm : ModuleId) (nd : NsDef) (res : ImportResolution) :
    Resolver :=
  check_for_conflicts_between_imports_and_items
    (modifyModule
      (check_that_import_is_importable
        (check_for_conflicting_import s res d.span target ns) nd d.span target)
      mid (fun m =>
        { m with import_resolutions :=
            (alSet m.import_resolutions (target, ns) (installedSlot res tm nd d)) }))
    mid (installedSlot res tm nd d) d.span target ns

/-- On a successful resolution, `check_and_write_import` returns the
binding's publicity and the install state `cwState`. -/
theorem cw_success_eq (s : Resolver) (mid : ModuleId) (d : ImportDirective)
    (target : Name) (ns : Namespace) (tm : ModuleId) (nd : NsDef)
    (res : ImportResolution)
    (hslot : alGet (getModule s mid).import_resolutions (target, ns) = some res) :
    check_and_write_import s mid d target ns (.Success (tm, nd)) =
      some (nd.is_public, cwState s mid d target ns tm nd res) := by
  unfold check_and_write_import cwState installedSlot
  rw [hslot]

/-- On a failed resolution, `check_and_write_import` only runs the conflict
check: the module table and DefMap are unchanged. -/
theorem cw_failed_eq (s : Resolver) (mid : ModuleId) (d : ImportDirective)
    (target : Name) (ns : Namespace) (e0 : Option (Nat × String))
    (res : ImportResolution)
    (hslot : alGet (getModule s mid).import_resolutions (target, ns) = some res) :
    ∃ s', check_and_write_import s mid d target ns (.Failed e0) = some (false, s') ∧
      s'.modules = s.modules ∧ s'.def_map = s.def_map := by
  obtain ⟨hm, hd⟩ := diagsOnly_fields (conflicts_check_diags s mid res d.span target ns)
  refine ⟨check_for_conflicts_between_imports_and_items s mid res d.span target ns,
    ?_, hm, hd⟩
  unfold check_and_write_import
  rw [hslot]

/-- What `cwState` does to the resolver: the touched slot now holds the
installed target, everything else in the module table and the DefMap is
preserved. -/
theorem cwState_fields (s : Resolver) (mid : ModuleId) (d : ImportDirective)
    (target : Name) (ns : Namespace) (tm : ModuleId) (nd : NsDef)
    (res : ImportResolution) (hmid : mid < s.modules.length) :
    (cwState s mid d target ns tm nd res).modules.length = s.modules.length ∧
    (cwState s mid d target ns tm nd res).def_map = s.def_map ∧
    alGet (getModule (cwState s mid d target ns tm nd res) mid).import_resolutions
        (target, ns) = some (installedSlot res tm nd d) ∧
    (∀ k : Name × Namespace, k ≠ (target, ns) →
      alGet (getModule (cwState s mid d target ns tm nd res) mid).import_resolutions k =
        alGet (getModule s mid).import_resolutions k) ∧
    (∀ m2 : ModuleId, m2 ≠ mid →
      getModule (cwState s mid d target ns tm nd res) m2 = getModule s m2) := by
  have h1 := diagsOnly_fields (check_for_conflicting_import_diags s res d.span target ns)
  have h2 := diagsOnly_fields (check_that_import_is_importable_diags
    (check_for_conflicting_import s res d.span target ns) nd d.span target)
  have hXm : (check_that_import_is_importable
      (check_for_conflicting_import s res d.span target ns) nd d.span target).modules =
      s.modules := by rw [h2.1, h1.1]
  have hXd : (check_that_import_is_importable
      (check_for_conflicting_import s res d.span target ns) nd d.span target).def_map =
      s.def_map := by rw [h2.2, h1.2]
  have h3 := diagsOnly_fields (conflicts_check_diags
    (modifyModule
      (check_that_import_is_importable
        (check_for_conflicting_import s res d.span target ns) nd d.span target)
      mid (fun m =>
        { m with import_resolutions :=
            (alSet m.import_resolutions (target, ns) (installedSlot res tm nd d)) }))
    mid (installedSlot res tm nd d) d.span target ns)
  have hmidX : mid < (check_that_import_is_importable
      (check_for_conflicting_import s res d.span target ns) nd d.span target).modules.length := by
    rw [hXm]
    exact hmid
  unfold cwState
  refine ⟨?_, ?_, ?_, ?_, ?_⟩
  · rw [h3.1]
    show ((check_that_import_is_importable
      (check_for_conflicting_import s res d.span target ns) nd d.span
      target).modules.set mid _).length = s.modules.length
    rw [List.length_set, hXm]
  · rw [h3.2]
    exact hXd
  · rw [getModule_eq_of_modules_eq h3.1, getModule_modifyModule_self _ _ _ hmidX,
      getModule_eq_of_modules_eq hXm]
    exact alGet_alSet_self _ _ _
  · intro k hk
    rw [getModule_eq_of_modules_eq h3.1, getModule_modifyModule_self _ _ _ hmidX,
      getModule_eq_of_modules_eq hXm]
    exact alGet_alSet_ne _ _ _ _ hk
  · intro m2 hm2
    rw [getModule_eq_of_modules_eq h3.1, getModule_modifyModule_other _ _ _ _ hm2,
      getModule_eq_of_modules_eq hXm]

/-- The state `record_import_resolution` produces apart from its DefMap
update: the slot's outstanding-reference count goes down by one. -/
def recStateN (s : Resolver) (mid : ModuleId) (target : Name) (ns : Namespace)
    (res : ImportResolution) : Resolver :=
  modifyModule s mid (fun m =>
    { m with import_resolutions :=
        (alSet m.import_resolutions (target, ns) (decrSlot res)) })

/-- Recording a namespace whose slot has no target just decrements the
outstanding-reference count. -/
theorem record_none_eq (s : Resolver) (mid : ModuleId) (d : ImportDirective)
    (target : Name) (ns : Namespace) (up : Bool) (lp : PrivateDep)
    (res : ImportResolution)
    (hslot : alGet (getModule s mid).import_resolutions (target, ns) = some res)
    (hout : ¬ res.outstanding_references = 0)
    (htgt : res.target = none) :
    record_import_resolution s mid d target ns up lp =
      some (recStateN s mid target ns res) := by
  unfold record_import_resolution recStateN decrSlot
  simp only [hslot]
  rw [if_neg hout]
  simp only [htgt]

/-- Recording a namespace whose slot holds a plain-definition target
decrements the count and writes one DefMap entry for the directive. -/
theorem record_some_eq (s : Resolver) (mid : ModuleId) (d : ImportDirective)
    (target : Name) (ns : Namespace) (up : Bool) (lp : PrivateDep)
    (res : ImportResolution) (t : Target) (d0 : Def)
    (hslot : alGet (getModule s mid).import_resolutions (target, ns) = some res)
    (hout : ¬ res.outstanding_references = 0)
    (htgt : res.target = some t)
    (hnd : t.ns_def.def_or_module = DefOrModule.aDef d0)
    (hdm : alGet s.def_map d.id = none) :
    ∃ pr : PathResolution,
      record_import_resolution s mid d target ns up lp =
        some { recStateN s mid target ns res with
                 def_map := alSet s.def_map d.id pr } := by
  cases ns with
  | ValueNS =>
    unfold record_import_resolution recStateN decrSlot
    simp only [hslot]
    rw [if_neg hout]
    simp only [htgt]
    rw [nsDefDef_aDef _ _ _ hnd]
    simp only [def_map_modifyModule, hdm, Option.getD_none]
    rw [if_neg (by decide : ¬ Namespace.ValueNS = Namespace.TypeNS)]
    exact ⟨_, rfl⟩
  | TypeNS =>
    unfold record_import_resolution recStateN decrSlot
    simp only [hslot]
    rw [if_neg hout]
    simp only [htgt]
    rw [nsDefDef_aDef _ _ _ hnd]
    simp only [def_map_modifyModule, hdm, Option.getD_none]
    simp only [ite_self]
    exact ⟨_, rfl⟩

/-- What `recStateN` does to the resolver. -/
theorem recStateN_fields (s : Resolver) (mid : ModuleId) (target : Name)
    (ns : Namespace) (res : ImportResolution) (hmid : mid < s.modules.length) :
    (recStateN s mid target ns res).modules.length = s.modules.length ∧
    (recStateN s mid target ns res).def_map = s.def_map ∧
    alGet (getModule (recStateN s mid target ns res) mid).import_resolutions
        (target, ns) = some (decrSlot res) ∧
    (∀ k : Name × Namespace, k ≠ (target, ns) →
      alGet (getModule (recStateN s mid target ns res) mid).import_resolutions k =
        alGet (getModule s mid).import_resolutions k) ∧
    (∀ m2 : ModuleId, m2 ≠ mid →
      getModule (recStateN s mid target ns res) m2 = getModule s m2) := by
  unfold recStateN
  refine ⟨?_, rfl, ?_, ?_, ?_⟩
  · show (s.modules.set mid _).length = s.modules.length
    rw [List.length_set]
  · rw [getModule_modifyModule_self _ _ _ hmid]
    exact alGet_alSet_self _ _ _
  · intro k hk
    rw [getModule_modifyModule_self _ _ _ hmid]
    exact alGet_alSet_ne _ _ _ _ hk
  · intro m2 hm2
    exact getModule_modifyModule_other _ _ _ _ hm2

/-- The write/record tail either aborts (a would-be panic) or returns
`Success(())`: it can never produce `Failed`. -/
theorem write_shape (s2 : Resolver) (module_ : ModuleId) (d : ImportDirective)
    (target : Name) (vr tr : ResolveResult (ModuleId × NsDef)) (vu tu : Bool)
    (p : PrivateDep) :
    resolve_single_import_write s2 module_ d target vr tr vu tu p = none ∨
    ∃ s6, resolve_single_import_write s2 module_ d target vr tr vu tu p =
      some (.Success (), s6) := by
  unfold resolve_single_import_write
  rcases h1 : check_and_write_import s2 module_ d target .ValueNS vr with _ | ⟨u3, s3⟩
  · exact Or.inl rfl
  · dsimp only
    rcases h2 : record_import_resolution s3 module_ d target .ValueNS (vu || u3) p
        with _ | s4
    · exact Or.inl rfl
    · dsimp only
      rcases h3 : check_and_write_import s4 module_ d target .TypeNS tr with _ | ⟨u5, s5⟩
      · exact Or.inl rfl
      · dsimp only
        rcases h4 : record_import_resolution s5 module_ d target .TypeNS (tu || u5) p
            with _ | s6
        · exact Or.inl rfl
        · exact Or.inr ⟨s6, rfl⟩


/-- When the value namespace succeeded and the type namespace failed, the
write/record tail succeeds and leaves the value-namespace slot holding the
resolved target. -/
theorem write_success_value_spec
    (s2 : Resolver) (module_ : ModuleId) (d : ImportDirective) (target : Name)
    (tm : ModuleId) (nd : NsDef) (e2 : Option (Nat × String))
    (vu tu : Bool) (p : PrivateDep)
    (resV resT : ImportResolution) (d0 : Def)
    (hmid : module_ < s2.modules.length)
    (hsV : alGet (getModule s2 module_).import_resolutions (target, .ValueNS) = some resV)
    (houtV : ¬ resV.outstanding_references = 0)
    (hsT : alGet (getModule s2 module_).import_resolutions (target, .TypeNS) = some resT)
    (houtT : ¬ resT.outstanding_references = 0)
    (htgtT : resT.target = none)
    (hnd : nd.def_or_module = DefOrModule.aDef d0)
    (hdm : alGet s2.def_map d.id = none) :
    ∃ s6 : Resolver, resolve_single_import_write s2 module_ d target
        (.Success (tm, nd)) (.Failed e2) vu tu p = some (.Success (), s6) ∧
      ∃ slot : ImportResolution,
        alGet (getModule s6 module_).import_resolutions (target, .ValueNS) = some slot ∧
        slot.target = some (Target.new tm nd d.shadowable) ∧
        slot.id = d.id ∧ slot.is_public = d.is_public := by
  have h1 := cw_success_eq s2 module_ d target .ValueNS tm nd resV hsV
  obtain ⟨hlen3, hdm3, hself3, hother3, hmods3⟩ :=
    cwState_fields s2 module_ d target .ValueNS tm nd resV hmid
  have hmid3 : module_ < (cwState s2 module_ d target .ValueNS tm nd resV).modules.length := by
    rw [hlen3]
    exact hmid
  obtain ⟨pr, h2⟩ := record_some_eq (cwState s2 module_ d target .ValueNS tm nd resV)
    module_ d target .ValueNS (vu || nd.is_public) p
    (installedSlot resV tm nd d) (Target.new tm nd d.shadowable) d0
    hself3 houtV rfl hnd (by rw [hdm3]; exact hdm)
  obtain ⟨hlen4, hdm4, hself4, hother4, hmods4⟩ :=
    recStateN_fields (cwState s2 module_ d target .ValueNS tm nd resV) module_ target
      .ValueNS (installedSlot resV tm nd d) hmid3
  set S4 : Resolver :=
    { recStateN (cwState s2 module_ d target Namespace.ValueNS tm nd resV) module_
        target Namespace.ValueNS (installedSlot resV tm nd d) with
      def_map := alSet (cwState s2 module_ d target Namespace.ValueNS tm nd resV).def_map
        d.id pr } with hS4
  have hgm4 : ∀ m2 : ModuleId, getModule S4 m2 =
      getModule (recStateN (cwState s2 module_ d target Namespace.ValueNS tm nd resV)
        module_ target Namespace.ValueNS (installedSlot resV tm nd d)) m2 := by
    intro m2
    rw [hS4]
    rfl
  have hlenS4 : S4.modules.length = s2.modules.length := by
    rw [hS4]
    show (recStateN (cwState s2 module_ d target Namespace.ValueNS tm nd resV) module_
        target Namespace.ValueNS (installedSlot resV tm nd d)).modules.length = _
    rw [hlen4, hlen3]
  have hmid4 : module_ < S4.modules.length := by
    rw [hlenS4]
    exact hmid
  have hsT4 : alGet (getModule S4 module_).import_resolutions (target, Namespace.TypeNS) =
      some resT := by
    rw [hgm4 module_, hother4 (target, Namespace.TypeNS) (by simp),
      hother3 (target, Namespace.TypeNS) (by simp)]
    exact hsT
  have hsV4 : alGet (getModule S4 module_).import_resolutions (target, Namespace.ValueNS) =
      some (decrSlot (installedSlot resV tm nd d)) := by
    rw [hgm4 module_]
    exact hself4
  obtain ⟨s5, h3, hm5, hd5⟩ := cw_failed_eq S4 module_ d target .TypeNS e2 resT hsT4
  have hsT5 : alGet (getModule s5 module_).import_resolutions (target, Namespace.TypeNS) =
      some resT := by
    rw [getModule_eq_of_modules_eq hm5]
    exact hsT4
  have hsV5 : alGet (getModule s5 module_).import_resolutions (target, Namespace.ValueNS) =
      some (decrSlot (installedSlot resV tm nd d)) := by
    rw [getModule_eq_of_modules_eq hm5]
    exact hsV4
  have hmid5 : module_ < s5.modules.length := by
    rw [hm5]
    exact hmid4
  have h4 := record_none_eq s5 module_ d target .TypeNS (tu || false) p resT hsT5 houtT htgtT
  obtain ⟨hlen6, hdm6, hself6, hother6, hmods6⟩ :=
    recStateN_fields s5 module_ target .TypeNS resT hmid5
  refine ⟨recStateN s5 module_ target Namespace.TypeNS resT, ?_,
    decrSlot (installedSlot resV tm nd d), ?_, rfl, rfl, rfl⟩
  · unfold resolve_single_import_write
    rw [h1]
    dsimp only
    rw [h2]
    dsimp only
    rw [h3]
    dsimp only
    rw [h4]
  · rw [hother6 (target, Namespace.ValueNS) (by simp)]
    exact hsV5

/-- When the value namespace failed and the type namespace succeeded, the
write/record tail succeeds and leaves the type-namespace slot holding the
resolved target. -/
theorem write_success_type_spec
    (s2 : Resolver) (module_ : ModuleId) (d : ImportDirective) (target : Name)
    (tm : ModuleId) (nd : NsDef) (e1 : Option (Nat × String))
    (vu tu : Bool) (p : PrivateDep)
    (resV resT : ImportResolution) (d0 : Def)
    (hmid : module_ < s2.modules.length)
    (hsV : alGet (getModule s2 module_).import_resolutions (target, .ValueNS) = some resV)
    (houtV : ¬ resV.outstanding_references = 0)
    (htgtV : resV.target = none)
    (hsT : alGet (getModule s2 module_).import_resolutions (target, .TypeNS) = some resT)
    (houtT : ¬ resT.outstanding_references = 0)
    (hnd : nd.def_or_module = DefOrModule.aDef d0)
    (hdm : alGet s2.def_map d.id = none) :
    ∃ s6 : Resolver, resolve_single_import_write s2 module_ d target
        (.Failed e1) (.Success (tm, nd)) vu tu p = some (.Success (), s6) ∧
      ∃ slot : ImportResolution,
        alGet (getModule s6 module_).import_resolutions (target, .TypeNS) = some slot ∧
        slot.target = some (Target.new tm nd d.shadowable) ∧
        slot.id = d.id ∧ slot.is_public = d.is_public := by
  obtain ⟨s3, h1, hm3, hd3⟩ := cw_failed_eq s2 module_ d target .ValueNS e1 resV hsV
  have hmid3 : module_ < s3.modules.length := by
    rw [hm3]
    exact hmid
  have hsV3 : alGet (getModule s3 module_).import_resolutions (target, Namespace.ValueNS) =
      some resV := by
    rw [getModule_eq_of_modules_eq hm3]
    exact hsV
  have hsT3 : alGet (getModule s3 module_).import_resolutions (target, Namespace.TypeNS) =
      some resT := by
    rw [getModule_eq_of_modules_eq hm3]
    exact hsT
  have h2 := record_none_eq s3 module_ d target .ValueNS (vu || false) p resV hsV3 houtV htgtV
  obtain ⟨hlen4, hdm4, hself4, hother4, hmods4⟩ :=
    recStateN_fields s3 module_ target .ValueNS resV hmid3
  have hmid4 : module_ <
      (recStateN s3 module_ target Namespace.ValueNS resV).modules.length := by
    rw [hlen4]
    exact hmid3
  have hsT4 : alGet (getModule (recStateN s3 module_ target Namespace.ValueNS resV)
      module_).import_resolutions (target, Namespace.TypeNS) = some resT := by
    rw [hother4 (target, Namespace.TypeNS) (by simp)]
    exact hsT3
  have h3 := cw_success_eq (recStateN s3 module_ target Namespace.ValueNS resV) module_ d
    target .TypeNS tm nd resT hsT4
  obtain ⟨hlen5, hdm5, hself5, hother5, hmods5⟩ :=
    cwState_fields (recStateN s3 module_ target Namespace.ValueNS resV) module_ d target
      .TypeNS tm nd resT hmid4
  have hmid5 : module_ < (cwState (recStateN s3 module_ target Namespace.ValueNS resV)
      module_ d target Namespace.TypeNS tm nd resT).modules.length := by
    rw [hlen5]
    exact hmid4
  obtain ⟨pr, h4⟩ := record_some_eq
    (cwState (recStateN s3 module_ target Namespace.ValueNS resV) module_ d target
      .TypeNS tm nd resT)
    module_ d target .TypeNS (tu || nd.is_public) p
    (installedSlot resT tm nd d) (Target.new tm nd d.shadowable) d0
    hself5 houtT rfl hnd (by rw [hdm5, hdm4, hd3]; exact hdm)
  obtain ⟨hlen6, hdm6, hself6, hother6, hmods6⟩ :=
    recStateN_fields (cwState (recStateN s3 module_ target Namespace.ValueNS resV)
      module_ d target .TypeNS tm nd resT) module_ target .TypeNS
      (installedSlot resT tm nd d) hmid5
  set S6 : Resolver :=
    { recStateN (cwState (recStateN s3 module_ target Namespace.ValueNS resV) module_ d
        target Namespace.TypeNS tm nd resT) module_ target Namespace.TypeNS
        (installedSlot resT tm nd d) with
      def_map := alSet (cwState (recStateN s3 module_ target Namespace.ValueNS resV)
        module_ d target Namespace.TypeNS tm nd resT).def_map d.id pr } with hS6
  have hgm6 : getModule S6 module_ =
      getModule (recStateN (cwState (recStateN s3 module_ target Namespace.ValueNS resV)
        module_ d target Namespace.TypeNS tm nd resT) module_ target Namespace.TypeNS
        (installedSlot resT tm nd d)) module_ := by
    rw [hS6]
    rfl
  refine ⟨S6, ?_, decrSlot (installedSlot resT tm nd d), ?_, rfl, rfl, rfl⟩
  · unfold resolve_single_import_write
    rw [h1]
    dsimp only
    rw [h2]
    dsimp only
    rw [h3]
    dsimp only
    rw [h4]
  · rw [hgm6]
    exact hself6


/-- A result with `failed = true` is a `Failed`. -/
theorem failed_exists {α : Type} (r : ResolveResult α) (h : r.failed = true) :
    ∃ e, r = ResolveResult.Failed e := by
  cases r with
  | Success a => simp [ResolveResult.failed] at h
  | Indeterminate => simp [ResolveResult.failed] at h
  | Failed e => exact ⟨e, rfl⟩

/-- C6: for a single-name import whose module path resolved, writing the two
namespace lookups as the value result (over the incoming state) and the type
result (over the state the value lookup left): (1) a value-namespace
indeterminacy returns Indeterminate at once; (2) otherwise a type-namespace
indeterminacy returns Indeterminate; (3) if both lookups failed the
directive fails with the "no such name" message; (4) conversely a Failed
return happens only when both lookups failed; (5) value success with type
failure still succeeds, installing the value binding into its slot; (6)
symmetrically for type success with value failure. -/
theorem claim_C6_single_import_semantics
    (s : Resolver) (module_ target_module : ModuleId) (target source : Name)
    (d : ImportDirective) (p : PrivateDep)
    (vr : ResolveResult (ModuleId × NsDef)) (vu : Bool) (s1 : Resolver) (pe1 : Bool)
    (tr : ResolveResult (ModuleId × NsDef)) (tu : Bool) (s2 : Resolver) (pe2 : Bool)
    (hv : do_resolve s target_module source .ValueNS module_ d false =
      ((vr, vu), s1, pe1))
    (ht : do_resolve s1 target_module source .TypeNS module_ d pe1 =
      ((tr, tu), s2, pe2)) :
    (vr = .Indeterminate →
      resolve_single_import s module_ target_module target source d (.LastMod p) =
        some (.Indeterminate, s1)) ∧
    (vr ≠ .Indeterminate → tr = .Indeterminate →
      resolve_single_import s module_ target_module target source d (.LastMod p) =
        some (.Indeterminate, s2)) ∧
    (vr.failed = true → tr.failed = true →
      resolve_single_import s module_ target_module target source d (.LastMod p) =
        some (.Failed (some (d.span,
          "There is no `" ++ source ++ "` in the target module")), s2)) ∧
    (∀ (e : Option (Nat × String)) (sf : Resolver),
      resolve_single_import s module_ target_module target source d (.LastMod p) =
        some (.Failed e, sf) → vr.failed = true ∧ tr.failed = true) ∧
    (∀ (tm : ModuleId) (nd : NsDef) (e2 : Option (Nat × String)) (d0 : Def)
        (resV resT : ImportResolution),
      vr = .Success (tm, nd) → tr = .Failed e2 →
      module_ < s2.modules.length →
      alGet (getModule s2 module_).import_resolutions (target, .ValueNS) = some resV →
      ¬ resV.outstanding_references = 0 →
      alGet (getModule s2 module_).import_resolutions (target, .TypeNS) = some resT →
      ¬ resT.outstanding_references = 0 →
      resT.target = none →
      nd.def_or_module = DefOrModule.aDef d0 →
      alGet s2.def_map d.id = none →
      ∃ s6, resolve_single_import s module_ target_module target source d
          (.LastMod p) = some (.Success (), s6) ∧
        ∃ slot : ImportResolution,
          alGet (getModule s6 module_).import_resolutions (target, .ValueNS) =
            some slot ∧
          slot.target = some (Target.new tm nd d.shadowable) ∧
          slot.id = d.id ∧ slot.is_public = d.is_public) ∧
    (∀ (tm : ModuleId) (nd : NsDef) (e1 : Option (Nat × String)) (d0 : Def)
        (resV resT : ImportResolution),
      vr = .Failed e1 → tr = .Success (tm, nd) →
      module_ < s2.modules.length →
      alGet (getModule s2 module_).import_resolutions (target, .ValueNS) = some resV →
      ¬ resV.outstanding_references = 0 →
      resV.target = none →
      alGet (getModule s2 module_).import_resolutions (target, .TypeNS) = some resT →
      ¬ resT.outstanding_references = 0 →
      nd.def_or_module = DefOrModule.aDef d0 →
      alGet s2.def_map d.id = none →
      ∃ s6, resolve_single_import s module_ target_module target source d
          (.LastMod p) = some (.Success (), s6) ∧
        ∃ slot : ImportResolution,
          alGet (getModule s6 module_).import_resolutions (target, .TypeNS) =
            some slot ∧
          slot.target = some (Target.new tm nd d.shadowable) ∧
          slot.id = d.id ∧ slot.is_public = d.is_public) := by
  refine ⟨?_, ?_, ?_, ?_, ?_, ?_⟩
  · intro hvi
    subst hvi
    unfold resolve_single_import
    dsimp only
    rw [hv]
  · intro hvni hti
    subst hti
    cases vr with
    | Indeterminate => exact absurd rfl hvni
    | Success a =>
      unfold resolve_single_import
      dsimp only
      rw [hv]
      dsimp only
      rw [ht]
    | Failed e0 =>
      unfold resolve_single_import
      dsimp only
      rw [hv]
      dsimp only
      rw [ht]
  · intro hvf htf
    obtain ⟨e1, rfl⟩ := failed_exists vr hvf
    obtain ⟨e2, rfl⟩ := failed_exists tr htf
    unfold resolve_single_import
    dsimp only
    rw [hv]
    dsimp only
    rw [ht]
    rfl
  · intro e sf hres
    have hwrite : ∀ (vr0 tr0 : ResolveResult (ModuleId × NsDef)),
        (resolve_single_import_write s2 module_ d target vr0 tr0 vu tu p =
          some (.Failed e, sf)) → False := by
      intro vr0 tr0 hh
      rcases write_shape s2 module_ d target vr0 tr0 vu tu p with hn | ⟨s6, hy⟩
      · rw [hn] at hh
        exact Option.noConfusion hh
      · rw [hy] at hh
        simp at hh
    cases vr with
    | Indeterminate =>
      have heq : resolve_single_import s module_ target_module target source d
          (.LastMod p) = some (.Indeterminate, s1) := by
        unfold resolve_single_import
        dsimp only
        rw [hv]
      rw [heq] at hres
      simp at hres
    | Success a =>
      cases tr with
      | Indeterminate =>
        have heq : resolve_single_import s module_ target_module target source d
            (.LastMod p) = some (.Indeterminate, s2) := by
          unfold resolve_single_import
          dsimp only
          rw [hv]
          dsimp only
          rw [ht]
        rw [heq] at hres
        simp at hres
      | Success b =>
        have heq : resolve_single_import s module_ target_module target source d
            (.LastMod p) = resolve_single_import_write s2 module_ d target
              (.Success a) (.Success b) vu tu p := by
          unfold resolve_single_import
          dsimp only
          rw [hv]
          dsimp only
          rw [ht]
          rfl
        rw [heq] at hres
        exact absurd hres (fun hh => hwrite _ _ hh)
      | Failed e2 =>
        have heq : resolve_single_import s module_ target_module target source d
            (.LastMod p) = resolve_single_import_write s2 module_ d target
              (.Success a) (.Failed e2) vu tu p := by
          unfold resolve_single_import
          dsimp only
          rw [hv]
          dsimp only
          rw [ht]
          rfl
        rw [heq] at hres
        exact absurd hres (fun hh => hwrite _ _ hh)
    | Failed e1 =>
      cases tr with
      | Indeterminate =>
        have heq : resolve_single_import s module_ target_module target source d
            (.LastMod p) = some (.Indeterminate, s2) := by
          unfold resolve_single_import
          dsimp only
          rw [hv]
          dsimp only
          rw [ht]
        rw [heq] at hres
        simp at hres
      | Success b =>
        have heq : resolve_single_import s module_ target_module target source d
            (.LastMod p) = resolve_single_import_write s2 module_ d target
              (.Failed e1) (.Success b) vu tu p := by
          unfold resolve_single_import
          dsimp only
          rw [hv]
          dsimp only
          rw [ht]
          rfl
        rw [heq] at hres
        exact absurd hres (fun hh => hwrite _ _ hh)
      | Failed e2 =>
        exact ⟨rfl, rfl⟩
  · intro tm nd e2 d0 resV resT hvs hts hmid hsV houtV hsT houtT htgtT hnd hdm
    subst hvs
    subst hts
    have heq : resolve_single_import s module_ target_module target source d
        (.LastMod p) = resolve_single_import_write s2 module_ d target
          (.Success (tm, nd)) (.Failed e2) vu tu p := by
      unfold resolve_single_import
      dsimp only
      rw [hv]
      dsimp only
      rw [ht]
      rfl
    obtain ⟨s6, hw, slot, hslot6, hq1, hq2, hq3⟩ :=
      write_success_value_spec s2 module_ d target tm nd e2 vu tu p resV resT d0
        hmid hsV houtV hsT houtT htgtT hnd hdm
    exact ⟨s6, heq.trans hw, slot, hslot6, hq1, hq2, hq3⟩
  · intro tm nd e1 d0 resV resT hvs hts hmid hsV houtV htgtV hsT houtT hnd hdm
    subst hvs
    subst hts
    have heq : resolve_single_import s module_ target_module target source d
        (.LastMod p) = resolve_single_import_write s2 module_ d target
          (.Failed e1) (.Success (tm, nd)) vu tu p := by
      unfold resolve_single_import
      dsimp only
      rw [hv]
      dsimp only
      rw [ht]
      rfl
    obtain ⟨s6, hw, slot, hslot6, hq1, hq2, hq3⟩ :=
      write_success_type_spec s2 module_ d target tm nd e1 vu tu p resV resT d0
        hmid hsV houtV htgtV hsT houtT hnd hdm
    exact ⟨s6, heq.trans hw, slot, hslot6, hq1, hq2, hq3⟩


/-- The public importable value binding the C6 witness resolves to. -/
def wNsDef : NsDef :=
  ⟨DefModifiers.IMPORTABLE.union DefModifiers.PUBLIC,
    .aDef (.DefOther ⟨0, 2⟩), some 4⟩

/-- C6 witness source module: provides `src` in the value namespace only. -/
def wSrcModule : Module :=
  { children := [(("src", Namespace.ValueNS), wNsDef)], anonymous_children := [],
    external_module_children := [], imports := [], import_resolutions := [],
    glob_count := 0, pub_count := 0, pub_glob_count := 0,
    resolved_import_count := 0, def_id := some ⟨0, 1⟩ }

/-- C6 witness destination module: two pre-seeded `t` slots, one per
namespace. -/
def wDstModule : Module :=
  { children := [], anonymous_children := [], external_module_children := [],
    imports := [],
    import_resolutions :=
      [(("t", Namespace.ValueNS), ⟨1, false, none, 7⟩),
       (("t", Namespace.TypeNS), ⟨1, false, none, 7⟩)],
    glob_count := 0, pub_count := 0, pub_glob_count := 0,
    resolved_import_count := 0, def_id := some ⟨0, 0⟩ }

/-- C6 witness resolver state. -/
def wState : Resolver :=
  { modules := [wDstModule, wSrcModule], graph_root := 0, unresolved_imports := 1,
    current_module := 0, def_map := [], used_imports := [], used_crates := [],
    import_uses := [], diags := [], module_path_results := [], ast_items := [] }

/-- C6 witness directive: `use m::src as t;`. -/
def wD : ImportDirective :=
  ⟨["m"], .SingleImport "t" "src", 5, 9, false, .Never⟩

/-- Witness for C6: the value namespace finds `src`, the type namespace
fails, and the directive still succeeds with the value binding written. -/
theorem claim_C6_witness :
    ∃ s6, resolve_single_import wState 0 1 "t" "src" wD (.LastMod .AllPublic) =
        some (.Success (), s6) ∧
      ∃ slot : ImportResolution,
        alGet (getModule s6 0).import_resolutions ("t", .ValueNS) = some slot ∧
        slot.target = some (Target.new 1 wNsDef wD.shadowable) ∧
        slot.id = wD.id ∧ slot.is_public = wD.is_public :=
  (claim_C6_single_import_semantics wState 0 1 "t" "src" wD .AllPublic
    (.Success (1, wNsDef)) false wState false (.Failed none) false wState false
    rfl rfl).2.2.2.2.1 1 wNsDef none (.DefOther ⟨0, 2⟩) ⟨1, false, none, 7⟩
    ⟨1, false, none, 7⟩ rfl rfl (by decide) (by decide) (by decide) (by decide)
    (by decide) rfl rfl rfl


/-! ### `unresolved_imports` accounting (C3) -/

theorem unresolved_addDiags (s : Resolver) (l : List Diag) :
    (addDiags s l).unresolved_imports = s.unresolved_imports := rfl

theorem unresolved_modifyModule (s : Resolver) (mid : ModuleId) (f : Module → Module) :
    (modifyModule s mid f).unresolved_imports = s.unresolved_imports := rfl

theorem unresolved_of_diagsOnly {s s' : Resolver} (h : DiagsOnly s s') :
    s'.unresolved_imports = s.unresolved_imports := by
  obtain ⟨e, rfl, -⟩ := h
  rfl

theorem unresolved_conflicts_check (s : Resolver) (mid : ModuleId)
    (ir : ImportResolution) (sp : Nat) (name : Name) (ns : Namespace) :
    (check_for_conflicts_between_imports_and_items s mid ir sp name ns).unresolved_imports =
      s.unresolved_imports :=
  unresolved_of_diagsOnly (conflicts_check_diags s mid ir sp name ns)

theorem unresolved_cfc (s : Resolver) (ir : ImportResolution) (sp : Nat)
    (name : Name) (ns : Namespace) :
    (check_for_conflicting_import s ir sp name ns).unresolved_imports =
      s.unresolved_imports :=
  unresolved_of_diagsOnly (check_for_conflicting_import_diags s ir sp name ns)

theorem unresolved_importable (s : Resolver) (nd : NsDef) (sp : Nat) (name : Name) :
    (check_that_import_is_importable s nd sp name).unresolved_imports =
      s.unresolved_imports :=
  unresolved_of_diagsOnly (check_that_import_is_importable_diags s nd sp name)

theorem unresolved_get_binding (s : Resolver) (ir : ImportResolution)
    (ns : Namespace) (source : Name) :
    (get_binding s ir ns source).2.unresolved_imports = s.unresolved_imports := by
  unfold get_binding
  split
  · rfl
  · split
    · rfl
    · dsimp only
      split
      · rfl
      · rfl

theorem unresolved_resolve_name (s : Resolver) (module : ModuleId) (name : Name)
    (ns : Namespace) (d : ImportDirective) (pe : Bool) :
    (resolve_name s module name ns d pe).2.1.unresolved_imports =
      s.unresolved_imports := by
  unfold resolve_name
  split
  · split
    · rfl
    · rfl
  · rfl

theorem unresolved_resolve_in_imports (s : Resolver) (module : ModuleId)
    (name : Name) (ns : Namespace) (om : ModuleId) (used : Bool) :
    (resolve_in_imports s module name ns om used).2.1.unresolved_imports =
      s.unresolved_imports := by
  unfold resolve_in_imports
  split
  · rfl
  · rcases halg : alGet (getModule s module).import_resolutions (name, ns) with _ | ir
    · rfl
    · dsimp only
      split
      · dsimp only
        have hthis := unresolved_get_binding s ir ns name
        rcases hgb : get_binding s ir ns name with ⟨r, s1⟩
        rw [hgb] at hthis
        exact hthis
      · split <;> first | rfl | (split <;> rfl)

theorem unresolved_do_resolve (s : Resolver) (module : ModuleId) (name : Name)
    (ns : Namespace) (om : ModuleId) (d : ImportDirective) (pe : Bool) :
    (do_resolve s module name ns om d pe).2.1.unresolved_imports =
      s.unresolved_imports := by
  unfold do_resolve
  dsimp only
  rcases hrn : resolve_name s module name ns d pe with ⟨r0, s1, pe1⟩
  have h1 : s1.unresolved_imports = s.unresolved_imports := by
    have h0 := unresolved_resolve_name s module name ns d pe
    rw [hrn] at h0
    exact h0
  rcases r0 with a | _ | e0
  · dsimp only
    exact h1
  · dsimp only
    have h2' := unresolved_resolve_in_imports s1 module name ns om false
    rcases hri : resolve_in_imports s1 module name ns om false with ⟨r1, s2, u1⟩
    rw [hri] at h2'
    have h2 : s2.unresolved_imports = s.unresolved_imports := h2'.trans h1
    dsimp only
    rcases r1 with b | _ | e1
    · exact h2
    · exact h2
    · rcases ns with _ | _
      · dsimp only
        split
        · exact h2
        · split
          · show s2.unresolved_imports = s.unresolved_imports
            exact h2
          · exact h2
      · exact h2
  · dsimp only
    have h2' := unresolved_resolve_in_imports s1 module name ns om false
    rcases hri : resolve_in_imports s1 module name ns om false with ⟨r1, s2, u1⟩
    rw [hri] at h2'
    have h2 : s2.unresolved_imports = s.unresolved_imports := h2'.trans h1
    dsimp only
    rcases r1 with b | _ | e1
    · exact h2
    · exact h2
    · rcases ns with _ | _
      · dsimp only
        split
        · exact h2
        · split
          · show s2.unresolved_imports = s.unresolved_imports
            exact h2
          · exact h2
      · exact h2

theorem unresolved_cw (s : Resolver) (mid : ModuleId) (d : ImportDirective)
    (target : Name) (ns : Namespace) (rr : ResolveResult (ModuleId × NsDef))
    (u : Bool) (s' : Resolver)
    (h : check_and_write_import s mid d target ns rr = some (u, s')) :
    s'.unresolved_imports = s.unresolved_imports := by
  unfold check_and_write_import at h
  split at h
  · exact Option.noConfusion h
  · split at h
    · exact Option.noConfusion h
    · simp only [Option.some.injEq, Prod.mk.injEq] at h
      obtain ⟨-, hs⟩ := h
      subst hs
      simp only [unresolved_conflicts_check]
    · simp only [Option.some.injEq, Prod.mk.injEq] at h
      obtain ⟨-, hs⟩ := h
      subst hs
      simp only [unresolved_conflicts_check, unresolved_modifyModule,
        unresolved_importable, unresolved_cfc]

theorem unresolved_record (s : Resolver) (mid : ModuleId) (d : ImportDirective)
    (target : Name) (ns : Namespace) (up : Bool) (lp : PrivateDep) (s' : Resolver)
    (h : record_import_resolution s mid d target ns up lp = some s') :
    s'.unresolved_imports = s.unresolved_imports := by
  unfold record_import_resolution at h
  rcases halg : alGet (getModule s mid).import_resolutions (target, ns) with _ | res
  · rw [halg] at h
    exact Option.noConfusion h
  · rw [halg] at h
    dsimp only at h
    by_cases hout : res.outstanding_references = 0
    · rw [if_pos hout] at h
      exact Option.noConfusion h
    · rw [if_neg hout] at h
      rcases htgt : res.target with _ | t
      · rw [htgt] at h
        dsimp only at h
        simp only [Option.some.injEq] at h
        subst h
        simp only [unresolved_modifyModule]
      · rw [htgt] at h
        dsimp only at h
        split at h
        · exact Option.noConfusion h
        · split at h
          · simp only [Option.some.injEq] at h
            subst h
            simp only [unresolved_modifyModule]
          · exact Option.noConfusion h

theorem unresolved_write (s2 : Resolver) (module_ : ModuleId) (d : ImportDirective)
    (target : Name) (vr tr : ResolveResult (ModuleId × NsDef)) (vu tu : Bool)
    (p : PrivateDep) (rr : ResolveResult Unit) (s' : Resolver)
    (h : resolve_single_import_write s2 module_ d target vr tr vu tu p =
      some (rr, s')) :
    s'.unresolved_imports = s2.unresolved_imports := by
  unfold resolve_single_import_write at h
  split at h
  · exact Option.noConfusion h
  · rename_i u3 s3 hcw
    dsimp only at h
    split at h
    · exact Option.noConfusion h
    · rename_i s4 hrec
      split at h
      · exact Option.noConfusion h
      · rename_i u5 s5 hcw2
        split at h
        · exact Option.noConfusion h
        · rename_i s6 hrec2
          simp only [Option.some.injEq, Prod.mk.injEq] at h
          obtain ⟨-, hs⟩ := h
          subst hs
          have e3 := unresolved_cw s2 module_ d target .ValueNS vr u3 s3 hcw
          have e4 := unresolved_record s3 module_ d target .ValueNS (vu || u3) p s4 hrec
          have e5 := unresolved_cw s4 module_ d target .TypeNS tr u5 s5 hcw2
          have e6 := unresolved_record s5 module_ d target .TypeNS (tu || u5) p s6 hrec2
          rw [e6, e5, e4, e3]

theorem unresolved_rsi (s : Resolver) (module_ : ModuleId) (tm0 : ModuleId)
    (target source : Name) (d : ImportDirective) (lp : LastPrivate)
    (rr : ResolveResult Unit) (s' : Resolver)
    (h : resolve_single_import s module_ tm0 target source d lp = some (rr, s')) :
    s'.unresolved_imports = s.unresolved_imports := by
  rcases lp with p | ⟨vp, vu2, tp, tu2⟩
  case LastImport =>
    unfold resolve_single_import at h
    exact Option.noConfusion h
  case LastMod =>
    rcases hdv : do_resolve s tm0 source .ValueNS module_ d false with ⟨⟨vr, vu⟩, s1, pe1⟩
    have h1 : s1.unresolved_imports = s.unresolved_imports := by
      have h0 := unresolved_do_resolve s tm0 source .ValueNS module_ d false
      rw [hdv] at h0
      exact h0
    rcases hdt : do_resolve s1 tm0 source .TypeNS module_ d pe1 with ⟨⟨tr, tu⟩, s2, pe2⟩
    have h2 : s2.unresolved_imports = s.unresolved_imports := by
      have h0 := unresolved_do_resolve s1 tm0 source .TypeNS module_ d pe1
      rw [hdt] at h0
      exact h0.trans h1
    rcases vr with a | _ | e1
    · rcases tr with b | _ | e2
      · have heq : resolve_single_import s module_ tm0 target source d (.LastMod p) =
            resolve_single_import_write s2 module_ d target
              (.Success a) (.Success b) vu tu p := by
          unfold resolve_single_import
          dsimp only
          rw [hdv]
          dsimp only
          rw [hdt]
          rfl
        rw [heq] at h
        exact (unresolved_write s2 module_ d target _ _ vu tu p rr s' h).trans h2
      · have heq : resolve_single_import s module_ tm0 target source d (.LastMod p) =
            some (.Indeterminate, s2) := by
          unfold resolve_single_import
          dsimp only
          rw [hdv]
          dsimp only
          rw [hdt]
        rw [heq] at h
        simp only [Option.some.injEq, Prod.mk.injEq] at h
        obtain ⟨-, hs⟩ := h
        subst hs
        exact h2
      · have heq : resolve_single_import s module_ tm0 target source d (.LastMod p) =
            resolve_single_import_write s2 module_ d target
              (.Success a) (.Failed e2) vu tu p := by
          unfold resolve_single_import
          dsimp only
          rw [hdv]
          dsimp only
          rw [hdt]
          rfl
        rw [heq] at h
        exact (unresolved_write s2 module_ d target _ _ vu tu p rr s' h).trans h2
    · have heq : resolve_single_import s module_ tm0 target source d (.LastMod p) =
          some (.Indeterminate, s1) := by
        unfold resolve_single_import
        dsimp only
        rw [hdv]
      rw [heq] at h
      simp only [Option.some.injEq, Prod.mk.injEq] at h
      obtain ⟨-, hs⟩ := h
      subst hs
      exact h1
    · rcases tr with b | _ | e2
      · have heq : resolve_single_import s module_ tm0 target source d (.LastMod p) =
            resolve_single_import_write s2 module_ d target
              (.Failed e1) (.Success b) vu tu p := by
          unfold resolve_single_import
          dsimp only
          rw [hdv]
          dsimp only
          rw [hdt]
          rfl
        rw [heq] at h
        exact (unresolved_write s2 module_ d target _ _ vu tu p rr s' h).trans h2
      · have heq : resolve_single_import s module_ tm0 target source d (.LastMod p) =
            some (.Indeterminate, s2) := by
          unfold resolve_single_import
          dsimp only
          rw [hdv]
          dsimp only
          rw [hdt]
        rw [heq] at h
        simp only [Option.some.injEq, Prod.mk.injEq] at h
        obtain ⟨-, hs⟩ := h
        subst hs
        exact h2
      · have heq : resolve_single_import s module_ tm0 target source d (.LastMod p) =
            some (.Failed (some (d.span,
              "There is no `" ++ source ++ "` in the target module")), s2) := by
          unfold resolve_single_import
          dsimp only
          rw [hdv]
          dsimp only
          rw [hdt]
          rfl
        rw [heq] at h
        simp only [Option.some.injEq, Prod.mk.injEq] at h
        obtain ⟨-, hs⟩ := h
        subst hs
        exact h2


theorem unresolved_merge (s : Resolver) (module_ cm : ModuleId)
    (d : ImportDirective) (name : Name) (ns : Namespace) (nd : NsDef) :
    (merge_import_resolution s module_ cm d name ns nd).unresolved_imports =
      s.unresolved_imports := by
  unfold merge_import_resolution
  rcases halg : alGet (getModule s module_).import_resolutions (name, ns) with _ | r
  · dsimp only
    split
    · split
      · simp only [unresolved_conflicts_check, unresolved_addDiags,
          unresolved_modifyModule]
      · simp only [unresolved_conflicts_check, unresolved_modifyModule]
    · simp only [unresolved_conflicts_check, unresolved_modifyModule]
  · dsimp only
    split
    · split
      · simp only [unresolved_conflicts_check, unresolved_addDiags]
      · simp only [unresolved_conflicts_check, unresolved_modifyModule]
    · simp only [unresolved_conflicts_check]

theorem unresolved_foldl {α : Type} (f : Resolver → α → Resolver)
    (h : ∀ (st : Resolver) (e : α),
      (f st e).unresolved_imports = st.unresolved_imports) :
    ∀ (l : List α) (st : Resolver),
      (List.foldl f st l).unresolved_imports = st.unresolved_imports := by
  intro l
  induction l with
  | nil => intro st; rfl
  | cons a as ih =>
    intro st
    rw [List.foldl_cons, ih (f st a), h st a]

theorem unresolved_copy_step (module_ : ModuleId) (d : ImportDirective) :
    ∀ (st : Resolver) (e : (Name × Namespace) × ImportResolution),
      (glob_copy_step module_ d st e).unresolved_imports =
        st.unresolved_imports := by
  intro st e
  unfold glob_copy_step
  dsimp only
  split
  · split
    · rfl
    · split
      · simp only [unresolved_modifyModule, unresolved_cfc]
      · rfl
  · split
    · rfl
    · simp only [unresolved_modifyModule]

theorem unresolved_merge_child_step (module_ tm : ModuleId) (d : ImportDirective) :
    ∀ (st : Resolver) (e : (Name × Namespace) × NsDef),
      (glob_merge_child_step module_ tm d st e).unresolved_imports =
        st.unresolved_imports := by
  intro st e
  unfold glob_merge_child_step
  exact unresolved_merge st module_ tm d e.1.1 e.1.2 e.2

theorem unresolved_merge_extern_step (module_ tm : ModuleId) (d : ImportDirective) :
    ∀ (st : Resolver) (e : Name × ModuleId),
      (glob_merge_extern_step module_ tm d st e).unresolved_imports =
        st.unresolved_imports := by
  intro st e
  unfold glob_merge_extern_step
  exact unresolved_merge st module_ tm d e.1 Namespace.TypeNS _

theorem unresolved_glob (s : Resolver) (module_ tm : ModuleId)
    (d : ImportDirective) (lp : LastPrivate) :
    (resolve_glob_import s module_ tm d lp).2.unresolved_imports =
      s.unresolved_imports := by
  unfold resolve_glob_import
  split
  · rfl
  · split
    · rfl
    · dsimp only
      split <;>
        simp only [unresolved_foldl _ (unresolved_merge_extern_step module_ tm d),
          unresolved_foldl _ (unresolved_merge_child_step module_ tm d),
          unresolved_foldl _ (unresolved_copy_step module_ d)]

theorem importAccounting_le (s : Resolver) (module_ : ModuleId)
    (d : ImportDirective) (rr rr' : ResolveResult Unit) (s' : Resolver)
    (h : importAccounting s module_ d rr = some (rr', s')) :
    s'.unresolved_imports ≤ s.unresolved_imports := by
  unfold importAccounting at h
  split at h
  · split at h
    · exact Option.noConfusion h
    · simp only [Option.some.injEq, Prod.mk.injEq] at h
      obtain ⟨-, hs⟩ := h
      subst hs
      simp only [unresolved_modifyModule]
      exact Nat.sub_le _ _
  · simp only [Option.some.injEq, Prod.mk.injEq] at h
    obtain ⟨-, hs⟩ := h
    subst hs
    exact Nat.le_refl _

theorem rifm_le (s : Resolver) (module_ : ModuleId) (d : ImportDirective)
    (rr : ResolveResult Unit) (s' : Resolver)
    (h : resolve_import_for_module s module_ d = some (rr, s')) :
    s'.unresolved_imports ≤ s.unresolved_imports := by
  unfold resolve_import_for_module at h
  dsimp only at h
  split at h
  · exact importAccounting_le _ _ _ _ _ _ h
  · exact importAccounting_le _ _ _ _ _ _ h
  · rename_i cm lp hc
    split at h
    · rename_i tgt src hsub
      split at h
      · exact Option.noConfusion h
      · rename_i rr1 s1 hrsi
        exact (importAccounting_le _ _ _ _ _ _ h).trans
          (unresolved_rsi _ _ _ _ _ _ _ _ _ hrsi).le
    · rcases hg : resolve_glob_import s module_ cm d lp with ⟨rr0, s1⟩
      rw [hg] at h
      dsimp only at h
      have hs1 : s1.unresolved_imports = s.unresolved_imports := by
        have h0 := unresolved_glob s module_ cm d lp
        rw [hg] at h0
        exact h0
      exact (importAccounting_le _ _ _ _ _ _ h).trans hs1.le

theorem moduleLoop_le (module_ : ModuleId) (import_count : Nat) :
    ∀ (fuel : Nat) (s : Resolver) (ii : List ImportDirective)
      (errs : List ImportResolvingError)
      (out : List ImportResolvingError × Resolver),
      resolveImportsForModuleLoop module_ import_count fuel s ii errs = some out →
      out.2.unresolved_imports ≤ s.unresolved_imports := by
  intro fuel
  induction fuel with
  | zero =>
    intro s ii errs out h
    exact Option.noConfusion h
  | succ fuel ih =>
    intro s ii errs out h
    unfold resolveImportsForModuleLoop at h
    split at h
    · dsimp only at h
      split at h
      · exact Option.noConfusion h
      · rename_i d0 hidx
        split at h
        · exact Option.noConfusion h
        · rename_i rr s1 hres
          have hle1 : s1.unresolved_imports ≤ s.unresolved_imports :=
            rifm_le _ _ _ _ _ hres
          split at h
          · have hle := ih _ _ _ _ h
            simp only [unresolved_modifyModule] at hle
            exact hle.trans hle1
          · have hle := ih _ _ _ _ h
            simp only [unresolved_modifyModule] at hle
            exact hle.trans hle1
          · have hle := ih _ _ _ _ h
            simp only [unresolved_modifyModule] at hle
            exact hle.trans hle1
    · simp only [Option.some.injEq] at h
      subst h
      simp only [unresolved_modifyModule, le_refl]

theorem rifm2_le (s : Resolver) (module_ : ModuleId)
    (out : List ImportResolvingError × Resolver)
    (h : resolve_imports_for_module s module_ = some out) :
    out.2.unresolved_imports ≤ s.unresolved_imports := by
  unfold resolve_imports_for_module at h
  split at h
  · simp only [Option.some.injEq] at h
    subst h
    exact Nat.le_refl _
  · exact moduleLoop_le module_ _ _ s [] [] out h

theorem subtreeStep_none
    (F : ModuleId → Resolver → Option (List ImportResolvingError × Resolver)) :
    ∀ l : List ModuleId, List.foldl (subtreeStep F) none l = none := by
  intro l
  induction l with
  | nil => rfl
  | cons c cs ih =>
    rw [List.foldl_cons]
    exact ih

theorem foldl_subtreeStep_le
    (F : ModuleId → Resolver → Option (List ImportResolvingError × Resolver))
    (hF : ∀ (c : ModuleId) (st : Resolver)
        (o : List ImportResolvingError × Resolver),
      F c st = some o → o.2.unresolved_imports ≤ st.unresolved_imports) :
    ∀ (l : List ModuleId) (acc out2 : List ImportResolvingError × Resolver),
      List.foldl (subtreeStep F) (some acc) l = some out2 →
      out2.2.unresolved_imports ≤ acc.2.unresolved_imports := by
  intro l
  induction l with
  | nil =>
    intro acc out2 hh
    rw [List.foldl_nil] at hh
    simp only [Option.some.injEq] at hh
    subst hh
    exact Nat.le_refl _
  | cons c cs ih =>
    rintro ⟨errs, st⟩ out2 hh
    rw [List.foldl_cons] at hh
    rcases hsub : F c st with _ | ⟨errs2, st2⟩
    · rw [show subtreeStep F (some (errs, st)) c = none from by
        unfold subtreeStep; dsimp only; rw [hsub]] at hh
      rw [subtreeStep_none] at hh
      exact Option.noConfusion hh
    · rw [show subtreeStep F (some (errs, st)) c = some (errs ++ errs2, st2) from by
        unfold subtreeStep; dsimp only; rw [hsub]] at hh
      exact (ih (errs ++ errs2, st2) out2 hh).trans (hF c st (errs2, st2) hsub)

theorem subtree_le :
    ∀ (fuel : Nat) (module_ : ModuleId) (s : Resolver)
      (out : List ImportResolvingError × Resolver),
      resolve_imports_for_module_subtree module_ fuel s = some out →
      out.2.unresolved_imports ≤ s.unresolved_imports := by
  intro fuel
  induction fuel with
  | zero =>
    intro module_ s out h
    exact Option.noConfusion h
  | succ fuel ih =>
    intro module_ s out h
    unfold resolve_imports_for_module_subtree at h
    dsimp only at h
    split at h
    · exact Option.noConfusion h
    · rename_i errors s1 hmod
      split at h
      · exact Option.noConfusion h
      · rename_i errs3 s3 hfold
        have hF : ∀ (c : ModuleId) (st : Resolver)
            (o : List ImportResolvingError × Resolver),
            resolve_imports_for_module_subtree c fuel st = some o →
            o.2.unresolved_imports ≤ st.unresolved_imports :=
          fun c st o hh => ih c st o hh
        have h1 : out.2.unresolved_imports ≤ s3.unresolved_imports :=
          foldl_subtreeStep_le _ hF _ (errs3, s3) out h
        have h2 : s3.unresolved_imports ≤ s1.unresolved_imports :=
          foldl_subtreeStep_le _ hF _
            (errors, { s1 with current_module := s.current_module }) (errs3, s3) hfold
        have h3 : s1.unresolved_imports ≤ s.unresolved_imports :=
          rifm2_le { s with current_module := module_ } module_ (errors, s1) hmod
        exact h1.trans (h2.trans h3)


/-- C3: (1) one full pass over the module tree never increases
`unresolved_imports`; and for the outer fixed-point loop, given the pass's
outcome: (2) a zero count stops with that state; (3) an unchanged nonzero
count stops after surfacing the collected hard errors if any exist and
otherwise reporting every still-pending directive as an unresolved import;
(4) otherwise the loop continues with the new count as `prev`, and — since
the recorded `prev` equals the previous iteration's count — the count
strictly decreased between the two successive iterations. -/
theorem claim_C3_outer_loop_progress_or_halt :
    (∀ (fuel : Nat) (module_ : ModuleId) (s : Resolver)
        (out : List ImportResolvingError × Resolver),
      resolve_imports_for_module_subtree module_ fuel s = some out →
      out.2.unresolved_imports ≤ s.unresolved_imports) ∧
    (∀ (fuel : Nat) (s : Resolver) (prev : Nat)
        (errors : List ImportResolvingError) (s1 : Resolver),
      resolve_imports_for_module_subtree s.graph_root (s.modules.length + 1) s =
        some (errors, s1) →
      (s1.unresolved_imports = 0 →
        resolveImportsLoop (fuel + 1) s prev = some s1) ∧
      (s1.unresolved_imports ≠ 0 → s1.unresolved_imports = prev →
        resolveImportsLoop (fuel + 1) s prev =
          some (if 0 < errors.length then flushErrors s1 errors
            else report_unresolved_imports s1.graph_root (s1.modules.length + 1) s1)) ∧
      (s1.unresolved_imports ≠ 0 → s1.unresolved_imports ≠ prev →
        resolveImportsLoop (fuel + 1) s prev =
          resolveImportsLoop fuel s1 s1.unresolved_imports ∧
        (s.unresolved_imports = prev → s1.unresolved_imports < prev))) := by
  constructor
  · exact fun fuel module_ s out h => subtree_le fuel module_ s out h
  · intro fuel s prev errors s1 hsub
    refine ⟨?_, ?_, ?_⟩
    · intro h0
      unfold resolveImportsLoop
      rw [hsub]
      dsimp only
      rw [if_pos h0]
    · intro h0 hp
      unfold resolveImportsLoop
      rw [hsub]
      dsimp only
      rw [if_neg h0, if_pos hp]
      by_cases hE : 0 < errors.length
      · rw [if_pos hE, if_pos hE]
      · rw [if_neg hE, if_neg hE]
    · intro h0 hp
      constructor
      · conv_lhs => unfold resolveImportsLoop
        rw [hsub]
        dsimp only
        rw [if_neg h0, if_neg hp]
      · intro hsp
        have hle : s1.unresolved_imports ≤ s.unresolved_imports :=
          subtree_le (s.modules.length + 1) s.graph_root s (errors, s1) hsub
        omega


/-- C3 witness destination module: one single import of a name its target
does not provide. -/
def wC3Dst : Module :=
  { children := [], anonymous_children := [], external_module_children := [],
    imports := [⟨["m"], .SingleImport "t" "nosuch", 5, 9, false, .Never⟩],
    import_resolutions := [], glob_count := 0, pub_count := 0,
    pub_glob_count := 0, resolved_import_count := 0, def_id := some ⟨0, 0⟩ }

/-- C3 witness resolver state: the pass parks the failing directive and
leaves `unresolved_imports` unchanged, so the loop stops and flushes the
collected hard error. -/
def wC3State : Resolver :=
  { modules := [wC3Dst, wSrcModule], graph_root := 0, unresolved_imports := 2,
    current_module := 0, def_map := [], used_imports := [], used_crates := [],
    import_uses := [], diags := [],
    module_path_results := [((0, ["m"]), .Success (1, .LastMod .AllPublic))],
    ast_items := [] }

/-- Witness for C3: a no-progress pass with a collected hard error makes the
outer loop stop after flushing it. -/
theorem claim_C3_witness :
    resolveImportsLoop (0 + 1) wC3State 2 =
      some (if 0 < ([⟨5, "m::nosuch", ". There is no `nosuch` in the target module"⟩] :
          List ImportResolvingError).length then
        flushErrors wC3State
          [⟨5, "m::nosuch", ". There is no `nosuch` in the target module"⟩]
      else report_unresolved_imports wC3State.graph_root
        (wC3State.modules.length + 1) wC3State) :=
  (claim_C3_outer_loop_progress_or_halt.2 0 wC3State 2
    [⟨5, "m::nosuch", ". There is no `nosuch` in the target module"⟩] wC3State
    (by decide)).2.1 (by decide) rfl


end ResolveImports
